import Mathlib

/-!
Shallow embedding of the GP7-app/corelib multi-party ECDSA orchestrator
(src/errors.rs, src/common/types.rs, src/common/messages.rs,
src/scenarios/mod.rs).

The elliptic-curve / Paillier / VSS / zero-knowledge primitives are external
collaborators of the repository (spec section 1, "Out of scope"); they are
modelled by simple carriers (scalars and points as integers, with the group
law modelled by integer addition) and by oracle records whose fields stand
for the external functions the orchestrator calls.  Everything the
orchestrator itself does - message taxonomy, channel traffic, the round
collector, the two drivers - is translated from the source.

The channel is modelled by a schedule: a list recording, for each call of
try_recv, what the call returns (a message, Empty, or Disconnected).  An
outgoing send always succeeds and appends to the emitted trace (the source
only fails a send when the transport has hung up, in which case nothing is
observable on the emitter anyway).  A Rust panic (out-of-bounds Vec index
in the collector) is a distinguished outcome of a run.
-/

namespace Corelib

/-- curv BigInt (external, modelled as an integer). -/
abbrev BigInt := Int

/-- curv FE, the scalar field of the fixed curve (external, modelled as an
integer). -/
abbrev FE := Int

/-- curv GE, the curve group (external; the group law is modelled by integer
addition, which carries the same commutative-group laws the orchestrator
relies on). -/
abbrev GE := Int

/-- paillier EncryptionKey (external, opaque to the orchestrator). -/
structure EncryptionKey where
  n : Nat
deriving DecidableEq, Repr, Inhabited

/-- gg_2018 party_i::Keys: fields the orchestrator reads (u_i in the DH key
derivation of DKG round 2, ek for MessageA::a, dk for MtA verification). -/
structure Keys where
  u_i : FE
  y_i : GE
  dk : Nat
  ek : EncryptionKey
  party_index : Nat
deriving DecidableEq, Repr, Inhabited

/-- gg_2018 party_i::SharedKeys (external, opaque to the orchestrator). -/
structure SharedKeys where
  val : Nat
deriving DecidableEq, Repr, Inhabited

/-- gg_2018 party_i::KeyGenBroadcastMessage1: the orchestrator reads field e
(the Paillier key) when assembling paillier_key_vec. -/
structure KeyGenBroadcastMessage1 where
  e : EncryptionKey
  com : BigInt
  correct_key_proof : Nat
deriving DecidableEq, Repr, Inhabited

/-- gg_2018 party_i::KeyGenDecommitMessage1: the orchestrator reads y_i. -/
structure KeyGenDecommitMessage1 where
  blind_factor : BigInt
  y_i : GE
deriving DecidableEq, Repr, Inhabited

/-- src/common/types.rs AEAD. -/
structure AEAD where
  ciphertext : List Nat
  tag : List Nat
deriving DecidableEq, Repr

/-- AEAD::default(): both byte vectors empty. -/
instance : Inhabited AEAD := ⟨⟨[], []⟩⟩

/-- curv feldman_vss::VerifiableSS (external, opaque to the orchestrator). -/
structure VerifiableSS where
  val : Nat
deriving DecidableEq, Repr, Inhabited

/-- curv sigma_dlog::DLogProof: the orchestrator reads pk (sign round 2). -/
structure DLogProof where
  pk : GE
  rest : Nat
deriving DecidableEq, Repr, Inhabited

/-- gg_2018 mta::MessageA (external, opaque to the orchestrator). -/
structure MessageA where
  val : Nat
deriving DecidableEq, Repr, Inhabited

/-- gg_2018 mta::MessageB: the orchestrator reads b_proof.pk. -/
structure MessageB where
  b_proof : DLogProof
  rest : Nat
deriving DecidableEq, Repr, Inhabited

/-- gg_2018 party_i::SignBroadcastPhase1 (external, opaque). -/
structure SignBroadcastPhase1 where
  val : Nat
deriving DecidableEq, Repr, Inhabited

/-- gg_2018 party_i::SignDecommitPhase1: the orchestrator reads g_gamma_i. -/
structure SignDecommitPhase1 where
  g_gamma_i : GE
  rest : Nat
deriving DecidableEq, Repr, Inhabited

/-- gg_2018 party_i::Phase5Com1 (external, opaque). -/
structure Phase5Com1 where
  val : Nat
deriving DecidableEq, Repr, Inhabited

/-- gg_2018 party_i::Phase5ADecom1: the orchestrator reads V_i. -/
structure Phase5ADecom1 where
  V_i : GE
  rest : Nat
deriving DecidableEq, Repr, Inhabited

/-- curv HomoELGamalProof (external, opaque). -/
structure HomoELGamalProof where
  val : Nat
deriving DecidableEq, Repr, Inhabited

/-- gg_2018 party_i::Phase5Com2 (external, opaque). -/
structure Phase5Com2 where
  val : Nat
deriving DecidableEq, Repr, Inhabited

/-- gg_2018 party_i::Phase5DDecom2 (external, opaque). -/
structure Phase5DDecom2 where
  val : Nat
deriving DecidableEq, Repr, Inhabited

/-- gg_2018 party_i::Signature. -/
structure Signature where
  r : FE
  s : FE
deriving DecidableEq, Repr, Inhabited

/-- gg_2018 party_i::LocalSignature (external, opaque to the orchestrator). -/
structure LocalSignature where
  val : Nat
deriving DecidableEq, Repr, Inhabited

/-- gg_2018 party_i::Parameters. -/
structure Parameters where
  threshold : Nat
  share_count : Nat
deriving DecidableEq, Repr, Inhabited

/-- src/common/types.rs KeystoreParameters. -/
structure KeystoreParameters where
  threshold : Nat
  share_count : Nat
deriving DecidableEq, Repr, Inhabited

/-- src/common/types.rs Keystore. -/
structure Keystore where
  params : KeystoreParameters
  party_key : Keys
  party_shares : List FE
  shared_keys : SharedKeys
  party_index : Nat
  vss_scheme_vec : List VerifiableSS
  paillier_key_vec : List EncryptionKey
  y_sum : GE
deriving DecidableEq, Repr, Inhabited

/-- src/errors.rs CoreErrors. -/
inductive CoreErrors where
  | invalidData (msg : String)
  | transportIssue (msg : String)
  | timeout (msg : String)
  | executionIssue (msg : String)
deriving DecidableEq, Repr, Inhabited

/-- Display impl of CoreErrors (derive_more format strings). -/
def CoreErrors.display : CoreErrors → String
  | .invalidData m => "Invalid data exception (" ++ m ++ ")"
  | .transportIssue m => "Transport issue (" ++ m ++ ")"
  | .timeout m => "Timeout (" ++ m ++ ")"
  | .executionIssue m => "Execution issue (" ++ m ++ ")"

/-- src/common/messages.rs Errors (wire-visible error codes). -/
inductive Errors where
  | halted
  | unknown
  | collectTimeout
  | collectUnexpectedData
  | collectDisconnected
deriving DecidableEq, Repr, Inhabited

/-- src/common/messages.rs SignRound1Data. -/
structure SignRound1Data where
  com : SignBroadcastPhase1
  enc : MessageA
deriving DecidableEq, Repr, Inhabited

/-- src/common/messages.rs SignRound2Data. -/
structure SignRound2Data where
  g : MessageB
  w : MessageB
deriving DecidableEq, Repr, Inhabited

/-- src/common/messages.rs SignRound6Data. -/
structure SignRound6Data where
  com : Phase5ADecom1
  proof : HomoELGamalProof
deriving DecidableEq, Repr, Inhabited

/-- src/common/messages.rs MessageData. -/
inductive MessageData where
  | none
  | keyGenRound1 (v : KeyGenBroadcastMessage1)
  | keyGenRound2 (v : KeyGenDecommitMessage1)
  | keyGenRound3 (v : AEAD)
  | keyGenRound4 (v : VerifiableSS)
  | keyGenRound5 (v : DLogProof)
  | signRound1 (v : SignRound1Data)
  | signRound2 (v : SignRound2Data)
  | signRound3 (v : FE)
  | signRound4 (v : SignDecommitPhase1)
  | signRound5 (v : Phase5Com1)
  | signRound6 (v : SignRound6Data)
  | signRound7 (v : Phase5Com2)
  | signRound8 (v : Phase5DDecom2)
  | signRound9 (v : FE)
deriving DecidableEq, Repr, Inhabited

/-- Display impl of MessageData. -/
def MessageData.display : MessageData → String
  | .keyGenRound1 _ => "Message: KeyGenRound1"
  | .keyGenRound2 _ => "Message: KeyGenRound2"
  | .keyGenRound3 _ => "Message: KeyGenRound3"
  | .keyGenRound4 _ => "Message: KeyGenRound4"
  | .keyGenRound5 _ => "Message: KeyGenRound5"
  | .signRound1 _ => "Message: SignRound1"
  | .signRound2 _ => "Message: SignRound2"
  | .signRound3 _ => "Message: SignRound3"
  | .signRound4 _ => "Message: SignRound4"
  | .signRound5 _ => "Message: SignRound5"
  | .signRound6 _ => "Message: SignRound6"
  | .signRound7 _ => "Message: SignRound7"
  | .signRound8 _ => "Message: SignRound8"
  | .signRound9 _ => "Message: SignRound9"
  | .none => "Message: Error"

/-- src/common/messages.rs IncomingMessages (single variant Send). -/
inductive IncomingMessages where
  | send (sender target : Nat) (data : MessageData)
deriving DecidableEq, Repr, Inhabited

/-- src/common/messages.rs RoundResult. -/
inductive RoundResult where
  | keyGen (private_key : Keystore) (public_key : GE)
  | sign (signature : Signature)
deriving DecidableEq, Repr, Inhabited

/-- src/common/messages.rs OutgoingMessages. -/
inductive OutgoingMessages where
  | send (sender target : Nat) (data : MessageData)
  | complete (r : RoundResult)
  | quit
  | error (e : Errors)
  | log (s : String)
deriving DecidableEq, Repr, Inhabited

/-- OutgoingMessages::make_send. -/
def OutgoingMessages.make_send (sender target : Nat) (data : MessageData) :
    OutgoingMessages :=
  .send sender target data

/-- OutgoingMessages::make_complete_keygen. -/
def OutgoingMessages.make_complete_keygen (keystore : Keystore) :
    OutgoingMessages :=
  .complete (.keyGen keystore keystore.y_sum)

/-- OutgoingMessages::make_complete_signature. -/
def OutgoingMessages.make_complete_signature (sig : Signature) :
    OutgoingMessages :=
  .complete (.sign sig)

/-- src/common/messages.rs trait FromData. -/
class FromData (α : Type) where
  get_from_data : MessageData → Option α

instance instFromDataKGB1 : FromData KeyGenBroadcastMessage1 :=
  ⟨fun d => match d with
    | .keyGenRound1 v => some v
    | _ => Option.none⟩

instance instFromDataKGD1 : FromData KeyGenDecommitMessage1 :=
  ⟨fun d => match d with
    | .keyGenRound2 v => some v
    | _ => Option.none⟩

instance instFromDataAEAD : FromData AEAD :=
  ⟨fun d => match d with
    | .keyGenRound3 v => some v
    | _ => Option.none⟩

instance instFromDataVSS : FromData VerifiableSS :=
  ⟨fun d => match d with
    | .keyGenRound4 v => some v
    | _ => Option.none⟩

instance instFromDataDLogProof : FromData DLogProof :=
  ⟨fun d => match d with
    | .keyGenRound5 v => some v
    | _ => Option.none⟩

instance instFromDataSR1 : FromData SignRound1Data :=
  ⟨fun d => match d with
    | .signRound1 v => some v
    | _ => Option.none⟩

instance instFromDataSR2 : FromData SignRound2Data :=
  ⟨fun d => match d with
    | .signRound2 v => some v
    | _ => Option.none⟩

/-- impl FromData for FE: accepts both SignRound3 and SignRound9. -/
instance instFromDataFE : FromData FE :=
  ⟨fun d => match d with
    | .signRound3 v => some v
    | .signRound9 v => some v
    | _ => Option.none⟩

instance instFromDataSDP1 : FromData SignDecommitPhase1 :=
  ⟨fun d => match d with
    | .signRound4 v => some v
    | _ => Option.none⟩

instance instFromDataP5C1 : FromData Phase5Com1 :=
  ⟨fun d => match d with
    | .signRound5 v => some v
    | _ => Option.none⟩

instance instFromDataSR6 : FromData SignRound6Data :=
  ⟨fun d => match d with
    | .signRound6 v => some v
    | _ => Option.none⟩

instance instFromDataP5C2 : FromData Phase5Com2 :=
  ⟨fun d => match d with
    | .signRound7 v => some v
    | _ => Option.none⟩

instance instFromDataP5D2 : FromData Phase5DDecom2 :=
  ⟨fun d => match d with
    | .signRound8 v => some v
    | _ => Option.none⟩

/-! Section: The channel model and the run monad

A run of the orchestrator is driven by a schedule: one entry per call of
Receiver::try_recv, recording what that call returns.  When the schedule is
exhausted every further poll returns Empty.  The result of a run is either
a value, a CoreErrors failure (the Err path of the source), a panic (an
out-of-bounds Vec index), or fuel exhaustion of the loop-unrolling budget
(shown below never to occur for the source's 3000 ms budget). -/

/-- What one call of try_recv returns. -/
inductive Poll where
  | msg (m : IncomingMessages)
  | empty
  | disconnected
deriving DecidableEq, Repr, Inhabited

/-- Outcome of a run. -/
inductive PRes (α : Type) where
  | ok (a : α)
  | fail (e : CoreErrors)
  | panicked
  | fuelOut
deriving Repr, DecidableEq

/-- A protocol computation: consumes a schedule, returns an outcome, the
remaining schedule, and the list of messages pushed to the emitter. -/
def Proto (α : Type) := List Poll → PRes α × List Poll × List OutgoingMessages

def Proto.pure {α : Type} (a : α) : Proto α := fun p => (.ok a, p, [])

def Proto.bind {α β : Type} (m : Proto α) (f : α → Proto β) : Proto β :=
  fun p =>
    match m p with
    | (.ok a, p1, w) =>
      match f a p1 with
      | (r, p2, w2) => (r, p2, w ++ w2)
    | (.fail e, p1, w) => (.fail e, p1, w)
    | (.panicked, p1, w) => (.panicked, p1, w)
    | (.fuelOut, p1, w) => (.fuelOut, p1, w)

/-- Push a message to the outgoing emitter (Sender::send; the send is
modelled as succeeding, see the header comment). -/
def emit (m : OutgoingMessages) : Proto Unit := fun p => (.ok (), p, [m])

/-- The Err path of the source (a ? on an Err value). -/
def failP {α : Type} (e : CoreErrors) : Proto α := fun p => (.fail e, p, [])

/-- A Rust panic. -/
def panicP {α : Type} : Proto α := fun p => (.panicked, p, [])

/-- One call of Receiver::try_recv against the schedule. -/
def pollOnce : Proto Poll := fun p =>
  match p with
  | [] => (.ok .empty, [], [])
  | q :: rest => (.ok q, rest, [])

/-- scenarios::log: Sender::send(Log(msg)). -/
def log (s : String) : Proto Unit := emit (.log s)

/-- scenarios::sendp2p. -/
def sendp2p (target party_id : Nat) (data : MessageData) : Proto Unit :=
  emit (.make_send party_id target data)

/-- Loop body of scenarios::broadcast over the remaining targets. -/
def broadcast_go (party_id : Nat) (data : MessageData) : List Nat → Proto Unit
  | [] => Proto.pure ()
  | t :: ts =>
    Proto.bind (sendp2p t party_id data) fun _ => broadcast_go party_id data ts

/-- scenarios::broadcast: sendp2p to every p in 0..participants, p ≠ party_id. -/
def broadcast (participants party_id : Nat) (data : MessageData) : Proto Unit :=
  broadcast_go party_id data ((List.range participants).filter (· ≠ party_id))

/-- Map a primitive's Result into the driver (the map_err(...)? pattern:
the error is formatted into an ExecutionIssue). -/
def liftPrim {α : Type} (pre : String) (x : Except String α) : Proto α :=
  match x with
  | .ok a => Proto.pure a
  | .error e => failP (.executionIssue (pre ++ e ++ ")"))

/-- Propagate an already-formed CoreErrors Result (the plain ? pattern). -/
def liftCore {α : Type} (x : Except CoreErrors α) : Proto α :=
  match x with
  | .ok a => Proto.pure a
  | .error e => failP e

/-! Section: The round collector (scenarios::collect_round, lines 100-171) -/

/-- The log line "Received {data} from {sender} (duplicate? {flag})". -/
def received_line (data : MessageData) (sender : Nat) (dup : Bool) : String :=
  "Received " ++ data.display ++ " from " ++ toString sender ++
    " (duplicate? " ++ toString dup ++ ")"

/-- Handling of one received message inside the collector loop (lines
142-158 of scenarios/mod.rs).  Reading vec[sender] for the duplicate flag
of the log line, and the store vec[sender] = Some(tvalue), index the slot
vector without a bounds check: a sender outside 0..participants is a Rust
panic, which the model surfaces as the panicked outcome. -/
def process_incoming {T : Type} [FromData T]
    (vec : List (Option T)) (sender : Nat) (data : MessageData) :
    Proto (List (Option T)) :=
  if h : sender < vec.length then
    Proto.bind (log (received_line data sender (vec.get ⟨sender, h⟩).isSome))
      fun _ =>
        match FromData.get_from_data (α := T) data with
        | Option.none =>
          failP (.invalidData ("Unexpected incoming data (" ++ data.display ++ ")"))
        | some tvalue => Proto.pure (vec.set sender (some tvalue))
  else
    panicP

/-- The collector loop (lines 119-159), unrolled on a fuel budget.  Each
iteration decrements the 3000 ms budget by 100 (the 100 ms sleep), so a run
takes at most 30 iterations; collect_round passes fuel 30 and
collect_loop_no_fuelOut below shows the fuelOut outcome is unreachable. -/
def collect_loop {T : Type} [FromData T] [Inhabited T] :
    Nat → Int → List (Option T) → Proto (List T)
  | 0, _, _ => fun p => (.fuelOut, p, [])
  | fuel + 1, timeout, vec =>
    -- the source writes timeout -= 100 at the top of the body; the
    -- decremented value timeout - 100 is written out below
    if timeout - 100 ≤ 0 then
      Proto.bind (log "Collecting data timeout achived. Halt the process")
        fun _ => failP (.timeout "Collecting time is over")
    else if vec.all (·.isSome) then
      -- the break path, followed by the post-loop emptiness check and the
      -- materialization vec.iter().map(unwrap) of the source
      if vec.any (·.isNone) then
        failP (.invalidData "Unexpected empty result")
      else
        Proto.pure (vec.map (fun x => x.getD default))
    else
      Proto.bind pollOnce fun q =>
        match q with
        | .empty => collect_loop fuel (timeout - 100) vec
        | .disconnected =>
          failP (.transportIssue "Incoming message channel is closed")
        | .msg (.send sender _ data) =>
          Proto.bind (process_incoming vec sender data) fun vec2 =>
            collect_loop fuel (timeout - 100) vec2

/-- scenarios::collect_round.  The slot vector is sized to participants and
the own slot is pre-filled with my_value; vec[party_id] panics when
party_id is out of range. -/
def collect_round {T : Type} [FromData T] [Inhabited T]
    (my_value : T) (party_id participants : Nat) : Proto (List T) :=
  if party_id < participants then
    collect_loop 30 3000
      ((List.replicate participants (Option.none : Option T)).set party_id
        (some my_value))
  else
    panicP

/-! Section: Run lemmas for the monad plumbing -/

@[simp] theorem log_run (s : String) (p : List Poll) :
    log s p = (.ok (), p, [.log s]) := rfl

@[simp] theorem emit_run (m : OutgoingMessages) (p : List Poll) :
    emit m p = (.ok (), p, [m]) := rfl

@[simp] theorem failP_run {α : Type} (e : CoreErrors) (p : List Poll) :
    failP (α := α) e p = (.fail e, p, []) := rfl

@[simp] theorem panicP_run {α : Type} (p : List Poll) :
    panicP (α := α) p = (.panicked, p, []) := rfl

@[simp] theorem pure_run {α : Type} (a : α) (p : List Poll) :
    Proto.pure a p = (.ok a, p, []) := rfl

@[simp] theorem bind_pure_run {α β : Type} (a : α) (f : α → Proto β)
    (p : List Poll) : Proto.bind (Proto.pure a) f p = f a p := by
  rcases h : f a p with ⟨r, p2, w2⟩
  simp [Proto.bind, Proto.pure, h]

@[simp] theorem bind_log_run {β : Type} (s : String) (f : Unit → Proto β)
    (p : List Poll) :
    Proto.bind (log s) f p =
      ((f () p).1, (f () p).2.1, .log s :: (f () p).2.2) := by
  rcases h : f () p with ⟨r, p2, w2⟩
  rcases r <;> simp [Proto.bind, log, emit, h]

@[simp] theorem bind_emit_run {β : Type} (m : OutgoingMessages)
    (f : Unit → Proto β) (p : List Poll) :
    Proto.bind (emit m) f p =
      ((f () p).1, (f () p).2.1, m :: (f () p).2.2) := by
  rcases h : f () p with ⟨r, p2, w2⟩
  rcases r <;> simp [Proto.bind, emit, h]

@[simp] theorem bind_fail_run {α β : Type} (e : CoreErrors)
    (f : α → Proto β) (p : List Poll) :
    Proto.bind (failP e) f p = (.fail e, p, []) := rfl

@[simp] theorem bind_panic_run {α β : Type} (f : α → Proto β)
    (p : List Poll) : Proto.bind panicP f p = (.panicked, p, []) := rfl

@[simp] theorem bind_pollOnce_nil {β : Type} (f : Poll → Proto β) :
    Proto.bind pollOnce f [] = f .empty [] := by
  rcases h : f .empty [] with ⟨r, p2, w2⟩
  rcases r <;> simp [Proto.bind, pollOnce, h]

@[simp] theorem bind_pollOnce_cons {β : Type} (f : Poll → Proto β)
    (q : Poll) (rest : List Poll) :
    Proto.bind pollOnce f (q :: rest) = f q rest := by
  rcases h : f q rest with ⟨r, p2, w2⟩
  rcases r <;> simp [Proto.bind, pollOnce, h]

theorem bind_run_ok {α β : Type} {m : Proto α} {f : α → Proto β}
    {p p1 : List Poll} {a : α} {w : List OutgoingMessages}
    (h : m p = (.ok a, p1, w)) :
    Proto.bind m f p = ((f a p1).1, (f a p1).2.1, w ++ (f a p1).2.2) := by
  rcases h2 : f a p1 with ⟨r, p2, w2⟩
  rcases r <;> simp [Proto.bind, h, h2]

theorem bind_run_fail {α β : Type} {m : Proto α} {f : α → Proto β}
    {p p1 : List Poll} {e : CoreErrors} {w : List OutgoingMessages}
    (h : m p = (.fail e, p1, w)) :
    Proto.bind m f p = (.fail e, p1, w) := by
  simp [Proto.bind, h]

theorem bind_run_panic {α β : Type} {m : Proto α} {f : α → Proto β}
    {p p1 : List Poll} {w : List OutgoingMessages}
    (h : m p = (.panicked, p1, w)) :
    Proto.bind m f p = (.panicked, p1, w) := by
  simp [Proto.bind, h]

/-! Section: Run lemmas for the collector's message handler -/

theorem process_incoming_run_oob {T : Type} [FromData T]
    (vec : List (Option T)) (sender : Nat) (data : MessageData)
    (p : List Poll) (h : vec.length ≤ sender) :
    process_incoming vec sender data p = (.panicked, p, []) := by
  simp [process_incoming, Nat.not_lt.2 h]

theorem process_incoming_run_none {T : Type} [FromData T]
    (vec : List (Option T)) (sender : Nat) (data : MessageData)
    (p : List Poll) (h : sender < vec.length)
    (hp : FromData.get_from_data (α := T) data = Option.none) :
    process_incoming vec sender data p =
      (.fail (.invalidData ("Unexpected incoming data (" ++ data.display ++ ")")),
        p, [.log (received_line data sender (vec.get ⟨sender, h⟩).isSome)]) := by
  simp [process_incoming, h, hp]

theorem process_incoming_run_some {T : Type} [FromData T]
    (vec : List (Option T)) (sender : Nat) (data : MessageData)
    (p : List Poll) (t : T) (h : sender < vec.length)
    (hp : FromData.get_from_data (α := T) data = some t) :
    process_incoming vec sender data p =
      (.ok (vec.set sender (some t)), p,
        [.log (received_line data sender (vec.get ⟨sender, h⟩).isSome)]) := by
  simp [process_incoming, h, hp]

/-- The fuel budget of 30 given by collect_round is never exhausted: each
iteration lowers the timeout by 100 and the loop returns once the
decremented budget is at or below zero. -/
theorem collect_loop_no_fuelOut {T : Type} [FromData T] [Inhabited T] :
    ∀ (fuel : Nat) (timeout : Int) (vec : List (Option T)) (polls : List Poll),
      0 < fuel → timeout ≤ 100 * fuel →
      (collect_loop fuel timeout vec polls).1 ≠ PRes.fuelOut := by
  intro fuel
  induction fuel with
  | zero =>
    intro timeout vec polls hpos _
    exact absurd hpos (by omega)
  | succ fuel ih =>
    intro timeout vec polls _ hb
    by_cases ht : timeout - 100 ≤ 0
    · simp [collect_loop, ht]
    · by_cases hall : vec.all (·.isSome)
      · by_cases hany : vec.any (·.isNone)
        · simp [collect_loop, ht, hall, hany]
        · simp [collect_loop, ht, hall, hany]
      · have hpos2 : 0 < fuel := by omega
        have hb2 : timeout - 100 ≤ 100 * fuel := by omega
        cases polls with
        | nil =>
          simp only [collect_loop, if_neg ht, if_neg hall, bind_pollOnce_nil]
          exact ih (timeout - 100) vec [] hpos2 hb2
        | cons q rest =>
          cases q with
          | empty =>
            simp only [collect_loop, if_neg ht, if_neg hall, bind_pollOnce_cons]
            exact ih (timeout - 100) vec rest hpos2 hb2
          | disconnected =>
            simp [collect_loop, ht, hall]
          | msg m =>
            cases m with
            | send s tgt d =>
              simp only [collect_loop, if_neg ht, if_neg hall,
                bind_pollOnce_cons]
              by_cases hlen : s < vec.length
              · cases hp : FromData.get_from_data (α := T) d with
                | none =>
                  rw [bind_run_fail (process_incoming_run_none vec s d rest hlen hp)]
                  simp
                | some tv =>
                  rw [bind_run_ok (process_incoming_run_some vec s d rest tv hlen hp)]
                  exact ih (timeout - 100) (vec.set s (some tv)) rest hpos2 hb2
              · rw [bind_run_panic
                  (process_incoming_run_oob vec s d rest (Nat.not_lt.1 hlen))]
                simp

/-- Invariant of the collector loop: when every message of the schedule has
a sender different from party_id, an ok run preserves the slot vector's
length and the content of slot party_id. -/
theorem collect_loop_ok_inv {T : Type} [FromData T] [Inhabited T]
    (party_id : Nat) (my_value : T) :
    ∀ (fuel : Nat) (timeout : Int) (vec : List (Option T)) (polls : List Poll)
      (v : List T) (p2 : List Poll) (w : List OutgoingMessages),
      (∀ s tgt d, Poll.msg (.send s tgt d) ∈ polls → s ≠ party_id) →
      vec[party_id]? = some (some my_value) →
      collect_loop fuel timeout vec polls = (.ok v, p2, w) →
      v.length = vec.length ∧ v[party_id]? = some my_value := by
  intro fuel
  induction fuel with
  | zero =>
    intro timeout vec polls v p2 w _ _ hrun
    simp [collect_loop] at hrun
  | succ fuel ih =>
    intro timeout vec polls v p2 w hns hslot hrun
    by_cases ht : timeout - 100 ≤ 0
    · simp [collect_loop, ht] at hrun
    · by_cases hall : vec.all (·.isSome)
      · have hany : vec.any (·.isNone) = false := by
          rw [List.any_eq_false]
          intro x hx
          have h := List.all_eq_true.1 hall x hx
          cases x
          · simp at h
          · simp
        simp only [collect_loop, if_neg ht, if_pos hall, hany,
          Bool.false_eq_true, if_false, pure_run, Prod.mk.injEq,
          PRes.ok.injEq] at hrun
        obtain ⟨h1, _, _⟩ := hrun
        subst h1
        constructor
        · exact List.length_map vec _
        · rw [List.getElem?_map, hslot]
          rfl
      · cases polls with
        | nil =>
          simp only [collect_loop, if_neg ht, if_neg hall,
            bind_pollOnce_nil] at hrun
          exact ih (timeout - 100) vec [] v p2 w (by simp) hslot hrun
        | cons q rest =>
          simp only [collect_loop, if_neg ht, if_neg hall,
            bind_pollOnce_cons] at hrun
          cases q with
          | empty =>
            exact ih (timeout - 100) vec rest v p2 w
              (fun s tgt d hm => hns s tgt d (List.mem_cons_of_mem _ hm))
              hslot hrun
          | disconnected => simp at hrun
          | msg m =>
            cases m with
            | send s tgt d =>
              have hs : s ≠ party_id :=
                hns s tgt d (List.mem_cons_self _ _)
              replace hrun : Proto.bind (process_incoming vec s d)
                  (fun vec2 => collect_loop fuel (timeout - 100) vec2) rest =
                  (.ok v, p2, w) := hrun
              by_cases hlen : s < vec.length
              · cases hp : FromData.get_from_data (α := T) d with
                | none =>
                  rw [bind_run_fail
                    (process_incoming_run_none vec s d rest hlen hp)] at hrun
                  simp at hrun
                | some tv =>
                  rw [bind_run_ok
                    (process_incoming_run_some vec s d rest tv hlen hp)] at hrun
                  rcases hrec : collect_loop fuel (timeout - 100)
                      (vec.set s (some tv)) rest with ⟨r2, q2, w2⟩
                  rw [hrec] at hrun
                  dsimp only at hrun
                  rw [Prod.mk.injEq, Prod.mk.injEq] at hrun
                  obtain ⟨h1, h2, h3⟩ := hrun
                  have hres := ih (timeout - 100) (vec.set s (some tv)) rest
                    v q2 w2
                    (fun s2 tgt2 d2 hm => hns s2 tgt2 d2 (List.mem_cons_of_mem _ hm))
                    (by rw [List.getElem?_set_ne hs]; exact hslot)
                    (by rw [hrec, h1])
                  refine ⟨?_, hres.2⟩
                  rw [hres.1, List.length_set]
              · rw [bind_run_panic
                  (process_incoming_run_oob vec s d rest (Nat.not_lt.1 hlen))]
                  at hrun
                simp at hrun

/-! Section: Claims about the collector -/

/-- C1 (counterexample).  The original claim says the element at party_id
equals my_value regardless of what messages arrive: false.  With my_value 5
for party 0 of 2, a schedule that delivers a round-3 scalar 7 from sender 0
(the collector's own index) and then 9 from sender 1 returns Ok, but the
element at index 0 is the overwritten 7, not the supplied 5. -/
theorem collect_round_own_slot_overwritten :
    (collect_round (T := FE) 5 0 2
        [Poll.msg (.send 0 0 (.signRound3 7)),
         Poll.msg (.send 1 0 (.signRound3 9))]).1 = .ok [7, 9] ∧
      ([7, 9] : List FE)[0]? ≠ some 5 := by
  constructor
  · rfl
  · decide

/-- C1 (amended).  Every successful collect_round returns a vector of
length exactly participants, and, provided no message of the schedule
carries sender index party_id, the element at party_id is the supplied
my_value.  (An arriving message whose sender equals party_id overwrites
the own slot, which is what the counterexample exploits.) -/
theorem collect_round_length_and_own_slot {T : Type} [FromData T]
    [Inhabited T] (my_value : T) (party_id participants : Nat)
    (polls : List Poll) (v : List T) (p2 : List Poll)
    (w : List OutgoingMessages)
    (hpid : party_id < participants)
    (hns : ∀ s tgt d, Poll.msg (.send s tgt d) ∈ polls → s ≠ party_id)
    (hrun : collect_round my_value party_id participants polls =
      (.ok v, p2, w)) :
    v.length = participants ∧ v[party_id]? = some my_value := by
  rw [collect_round, if_pos hpid] at hrun
  have hres := collect_loop_ok_inv party_id my_value 30 3000
    ((List.replicate participants (Option.none : Option T)).set party_id
      (some my_value))
    polls v p2 w hns
    (by
      rw [List.getElem?_set_eq_of_lt]
      rwa [List.length_replicate])
    hrun
  refine ⟨?_, hres.2⟩
  rw [hres.1, List.length_set, List.length_replicate]

/-- Witness for the amended C1 at a concrete input. -/
theorem collect_round_length_and_own_slot_witness :
    ((0 : Nat) < 2 ∧
      (collect_round (T := FE) 5 0 2 [Poll.msg (.send 1 0 (.signRound3 9))]).1 =
        .ok [5, 9]) ∧
      ([5, 9] : List FE).length = 2 ∧ ([5, 9] : List FE)[0]? = some 5 := by
  refine ⟨⟨by decide, by rfl⟩, ?_⟩
  exact collect_round_length_and_own_slot (T := FE) 5 0 2
    [Poll.msg (.send 1 0 (.signRound3 9))] [5, 9] []
    [.log (received_line (.signRound3 9) 1 false)]
    (by decide)
    (by
      intro s tgt d hm
      simp only [List.mem_singleton, Poll.msg.injEq,
        IncomingMessages.send.injEq] at hm
      obtain ⟨hs, -⟩ := hm
      omega)
    (by rfl)

/-- C6.  The FromData projection to FE succeeds exactly on the SignRound3
and SignRound9 variants, returning the carried scalar; every other
projection of the message taxonomy accepts exactly its single matching
round tag. -/
theorem fromData_projections :
    (∀ (d : MessageData) (x : FE),
        FromData.get_from_data d = some x ↔
          d = .signRound3 x ∨ d = .signRound9 x) ∧
    (∀ (d : MessageData) (x : KeyGenBroadcastMessage1),
        FromData.get_from_data d = some x ↔ d = .keyGenRound1 x) ∧
    (∀ (d : MessageData) (x : KeyGenDecommitMessage1),
        FromData.get_from_data d = some x ↔ d = .keyGenRound2 x) ∧
    (∀ (d : MessageData) (x : AEAD),
        FromData.get_from_data d = some x ↔ d = .keyGenRound3 x) ∧
    (∀ (d : MessageData) (x : VerifiableSS),
        FromData.get_from_data d = some x ↔ d = .keyGenRound4 x) ∧
    (∀ (d : MessageData) (x : DLogProof),
        FromData.get_from_data d = some x ↔ d = .keyGenRound5 x) ∧
    (∀ (d : MessageData) (x : SignRound1Data),
        FromData.get_from_data d = some x ↔ d = .signRound1 x) ∧
    (∀ (d : MessageData) (x : SignRound2Data),
        FromData.get_from_data d = some x ↔ d = .signRound2 x) ∧
    (∀ (d : MessageData) (x : SignDecommitPhase1),
        FromData.get_from_data d = some x ↔ d = .signRound4 x) ∧
    (∀ (d : MessageData) (x : Phase5Com1),
        FromData.get_from_data d = some x ↔ d = .signRound5 x) ∧
    (∀ (d : MessageData) (x : SignRound6Data),
        FromData.get_from_data d = some x ↔ d = .signRound6 x) ∧
    (∀ (d : MessageData) (x : Phase5Com2),
        FromData.get_from_data d = some x ↔ d = .signRound7 x) ∧
    (∀ (d : MessageData) (x : Phase5DDecom2),
        FromData.get_from_data d = some x ↔ d = .signRound8 x) := by
  refine ⟨fun d x => ?_, fun d x => ?_, fun d x => ?_, fun d x => ?_,
    fun d x => ?_, fun d x => ?_, fun d x => ?_, fun d x => ?_,
    fun d x => ?_, fun d x => ?_, fun d x => ?_, fun d x => ?_,
    fun d x => ?_⟩ <;>
  cases d <;>
  simp [FromData.get_from_data, instFromDataFE, instFromDataKGB1,
    instFromDataKGD1, instFromDataAEAD, instFromDataVSS,
    instFromDataDLogProof, instFromDataSR1, instFromDataSR2,
    instFromDataSDP1, instFromDataP5C1, instFromDataSR6, instFromDataP5C2,
    instFromDataP5D2, eq_comm]

/-- C8.  A second round message from the same in-range sender is logged
with duplicate flag true and overwrites that sender's slot; processing the
identical message again produces the identical slot vector, trace and
outcome (idempotence under identical resend). -/
theorem process_incoming_duplicate_overwrites {T : Type} [FromData T]
    (vec : List (Option T)) (sender : Nat) (data : MessageData)
    (polls : List Poll) (t : T)
    (h : sender < vec.length)
    (hfilled : (vec.get ⟨sender, h⟩).isSome = true)
    (hp : FromData.get_from_data (α := T) data = some t) :
    process_incoming vec sender data polls =
      (.ok (vec.set sender (some t)), polls,
        [.log (received_line data sender true)]) ∧
    process_incoming (vec.set sender (some t)) sender data polls =
      (.ok (vec.set sender (some t)), polls,
        [.log (received_line data sender true)]) := by
  constructor
  · rw [process_incoming_run_some vec sender data polls t h hp, hfilled]
  · have h2 : sender < (vec.set sender (some t)).length := by
      rwa [List.length_set]
    rw [process_incoming_run_some (vec.set sender (some t)) sender data
      polls t h2 hp, List.set_set]
    have h3 : ((vec.set sender (some t)).get ⟨sender, h2⟩).isSome = true := by
      have h4 : (vec.set sender (some t)).get ⟨sender, h2⟩ = some t := by
        rw [List.get_eq_getElem, ← Option.some_inj, ← List.getElem?_eq_getElem]
        exact List.getElem?_set_eq_of_lt (some t) (n := sender) (l := vec) h
      rw [h4]
      rfl
    rw [h3]

/-- Witness for C8 at a concrete input. -/
theorem process_incoming_duplicate_overwrites_witness :
    ((0 : Nat) < 2 ∧
      (([some 1, Option.none] : List (Option FE)).get ⟨0, by decide⟩).isSome =
        true ∧
      FromData.get_from_data (α := FE) (.signRound3 7) = some 7) ∧
    process_incoming (T := FE) [some 1, Option.none] 0 (.signRound3 7) [] =
      (.ok [some 7, Option.none], [],
        [.log (received_line (.signRound3 7) 0 true)]) := by
  refine ⟨⟨by decide, by decide, by decide⟩, ?_⟩
  exact (process_incoming_duplicate_overwrites
    (T := FE) [some 1, Option.none] 0 (.signRound3 7) [] 7
    (by decide) (by decide) (by decide)).1

/-- C9.  The sender of an incoming message is never bounds-checked: a
message whose sender is at least the slot-vector length (the expected
respondent count) makes the collector's handler panic (out-of-bounds Vec
index) with nothing logged, instead of returning a structured error. -/
theorem process_incoming_oob_sender_panics {T : Type} [FromData T]
    (vec : List (Option T)) (sender : Nat) (data : MessageData)
    (polls : List Poll)
    (h : vec.length ≤ sender) :
    process_incoming vec sender data polls = (.panicked, polls, []) ∧
      ∀ e p2 w, process_incoming vec sender data polls ≠ (.fail e, p2, w) := by
  refine ⟨process_incoming_run_oob vec sender data polls h, ?_⟩
  intro e p2 w hc
  rw [process_incoming_run_oob vec sender data polls h] at hc
  exact absurd (congrArg Prod.fst hc) (by simp)

/-- Witness for C9 at a concrete input: two expected respondents, a
message claiming sender 5. -/
theorem process_incoming_oob_sender_panics_witness :
    (([some 1, Option.none] : List (Option FE)).length ≤ 5) ∧
    process_incoming (T := FE) [some 1, Option.none] 5 (.signRound3 2) [] =
      (.panicked, [], []) := by
  refine ⟨by decide, ?_⟩
  exact (process_incoming_oob_sender_panics
    (T := FE) [some 1, Option.none] 5 (.signRound3 2) [] (by decide)).1

/-- C10.  The loop decrements and tests the budget before testing slot
completeness, so (first part) once the decremented budget is at or below
zero the loop fails with Timeout even if every slot is already filled; and
(second part) on the concrete schedule that delivers the one missing
message at the 29th poll, the message is consumed, logged and stored
(within the 3000 ms budget) and yet the call returns the Timeout failure;
moving the same message one poll earlier yields Ok, confirming it fills
the last open slot. -/
theorem collect_round_timeout_despite_filled :
    (∀ (T : Type) [FromData T] [Inhabited T] (fuel : Nat) (timeout : Int)
        (vec : List (Option T)) (polls : List Poll),
        timeout ≤ 100 → vec.all (·.isSome) = true →
        (collect_loop (fuel + 1) timeout vec polls).1 =
          .fail (.timeout "Collecting time is over")) ∧
    ((collect_round (T := FE) 7 0 2
        (List.replicate 28 Poll.empty ++
          [Poll.msg (.send 1 0 (.signRound3 9))])).1 =
        .fail (.timeout "Collecting time is over") ∧
      (collect_round (T := FE) 7 0 2
        (List.replicate 28 Poll.empty ++
          [Poll.msg (.send 1 0 (.signRound3 9))])).2.1 = [] ∧
      .log (received_line (.signRound3 9) 1 false) ∈
        (collect_round (T := FE) 7 0 2
          (List.replicate 28 Poll.empty ++
            [Poll.msg (.send 1 0 (.signRound3 9))])).2.2 ∧
      (collect_round (T := FE) 7 0 2
        (List.replicate 27 Poll.empty ++
          [Poll.msg (.send 1 0 (.signRound3 9))])).1 = .ok [7, 9]) := by
  constructor
  · intro T _ _ fuel timeout vec polls htime _
    have ht : timeout - 100 ≤ 0 := by omega
    simp [collect_loop, ht]
  · exact ⟨by rfl, by rfl, by decide, by rfl⟩

/-- Witness for the first part of C10 at a concrete input: budget 100,
a single filled slot. -/
theorem collect_round_timeout_despite_filled_witness :
    ((100 : Int) ≤ 100 ∧ ([some 3] : List (Option FE)).all (·.isSome) = true) ∧
    (collect_loop (T := FE) 1 100 [some 3] []).1 =
      .fail (.timeout "Collecting time is over") := by
  refine ⟨⟨by decide, by decide⟩, ?_⟩
  exact collect_round_timeout_despite_filled.1 FE 0 100 [some 3] []
    (by decide) (by decide)

/-! Section: The signing driver (scenarios::safe_sign / sign, lines 173-617)

The cryptographic primitives invoked by the driver are external (gg_2018
party_i, mta, curv); they enter the model as the fields of an oracle
record, so every theorem below holds for every behaviour of the
primitives. -/

/-- gg_2018 party_i::SignKeys: the fields the orchestrator reads. -/
structure SignKeys where
  w_i : FE
  g_w_i : GE
  k_i : FE
  gamma_i : FE
  g_gamma_i : GE
deriving DecidableEq, Repr, Inhabited

/-- gg_2018 party_i::PartyPrivate. -/
structure PartyPrivate where
  keys : Keys
  shared : SharedKeys
deriving DecidableEq, Repr, Inhabited

/-- PartyPrivate::set_private. -/
def set_private (keys : Keys) (shared : SharedKeys) : PartyPrivate :=
  ⟨keys, shared⟩

/-- The external primitives called by safe_sign. -/
structure SignOracles where
  sign_keys_create :
    PartyPrivate → VerifiableSS → Nat → List Nat → SignKeys
  get_commitments_to_xi : List VerifiableSS → List GE
  phase1_broadcast : SignKeys → SignBroadcastPhase1 × SignDecommitPhase1
  message_a : FE → EncryptionKey → MessageA
  message_b : FE → EncryptionKey → MessageA → MessageB × FE
  verify_proofs_get_alpha : MessageB → Nat → FE → Except String FE
  update_commitments_to_xi : GE → VerifiableSS → Nat → List Nat → GE
  phase2_delta_i : SignKeys → List FE → List FE → FE
  phase2_sigma_i : SignKeys → List FE → List FE → FE
  phase3_reconstruct_delta : List FE → FE
  phase4 : FE → List DLogProof → List SignDecommitPhase1 →
    List SignBroadcastPhase1 → Except String GE
  phase5_local_sig : FE → BigInt → GE → FE → GE → LocalSignature
  phase5a_broadcast_5b_zkproof :
    LocalSignature → Phase5Com1 × Phase5ADecom1 × HomoELGamalProof
  phase5c : LocalSignature → List Phase5ADecom1 → List Phase5Com1 →
    List HomoELGamalProof → GE → GE → Except String (Phase5Com2 × Phase5DDecom2)
  phase5d : LocalSignature → List Phase5DDecom2 → List Phase5Com2 →
    List Phase5ADecom1 → Except String FE
  output_signature : LocalSignature → List FE → Except String Signature

/-- MtA responder loop of sign round 2 (lines 282-301): for each co-signer
i in 0..=threshold with i ≠ party_num_id, produce the gamma and w
responder messages against the peer's Paillier key and MtA ciphertext,
with the running cursor j over the excluding-self vector. -/
def sign_round2_build (O : SignOracles) (sign_keys : SignKeys)
    (paillier_key_vector : List EncryptionKey) (signers_vec : List Nat)
    (m_a_vec : List MessageA) (party_num_id : Nat) :
    List Nat → Nat → List MessageB × List FE × List MessageB × List FE
  | [], _ => ([], [], [], [])
  | i :: is, j =>
    if i = party_num_id then
      sign_round2_build O sign_keys paillier_key_vector signers_vec m_a_vec
        party_num_id is j
    else
      let ek := paillier_key_vector.getD (signers_vec.getD i 0) default
      let ma := m_a_vec.getD j default
      let bg := O.message_b sign_keys.gamma_i ek ma
      let bw := O.message_b sign_keys.w_i ek ma
      let rest := sign_round2_build O sign_keys paillier_key_vector
        signers_vec m_a_vec party_num_id is (j + 1)
      (bg.1 :: rest.1, bg.2 :: rest.2.1, bw.1 :: rest.2.2.1,
        bw.2 :: rest.2.2.2)

/-- Unicast loop of sign round 2 (lines 305-319). -/
def sign_round2_sends (party_num_id : Nat) (gs ws : List MessageB) :
    List Nat → Nat → Proto Unit
  | [], _ => Proto.pure ()
  | i :: is, j =>
    if i = party_num_id then sign_round2_sends party_num_id gs ws is j
    else
      Proto.bind (sendp2p i party_num_id
          (.signRound2 ⟨gs.getD j default, ws.getD j default⟩)) fun _ =>
        sign_round2_sends party_num_id gs ws is (j + 1)

/-- Verification loop of sign round 2 (lines 346-384): for each co-signer,
verify the gamma B-proof and the w B-proof (extracting the two alphas),
reconstruct g_w_i from the Feldman VSS commitments and compare it with the
w message's proof point; any failure is an ExecutionIssue.  On success the
extracted alpha and miu vectors are returned; delta_i and sigma are only
computed by safe_sign after this loop returns Ok. -/
def sign_round2_verify (O : SignOracles) (dk : Nat) (k_i : FE)
    (m_b_gamma_rec_vec m_b_w_rec_vec : List MessageB)
    (xi_com_vec : List GE) (vss_scheme_vec : List VerifiableSS)
    (signers_vec : List Nat) (party_num_id : Nat) :
    List Nat → Nat → Except CoreErrors (List FE × List FE)
  | [], _ => .ok ([], [])
  | i :: is, j =>
    if i = party_num_id then
      sign_round2_verify O dk k_i m_b_gamma_rec_vec m_b_w_rec_vec xi_com_vec
        vss_scheme_vec signers_vec party_num_id is j
    else
      match O.verify_proofs_get_alpha (m_b_gamma_rec_vec.getD j default)
          dk k_i with
      | .error e =>
        .error (.executionIssue
          ("Verifying of alpha proofs failed (" ++ e ++ ") (gamma)"))
      | .ok alpha_ij_gamma =>
        match O.verify_proofs_get_alpha (m_b_w_rec_vec.getD j default)
            dk k_i with
        | .error e =>
          .error (.executionIssue
            ("Verifying of alpha proofs failed (" ++ e ++ ") (w)"))
        | .ok alpha_ij_wi =>
          let g_w_i := O.update_commitments_to_xi
            (xi_com_vec.getD (signers_vec.getD i 0) 0)
            (vss_scheme_vec.getD (signers_vec.getD i 0) default)
            (signers_vec.getD i 0) signers_vec
          if (m_b_w_rec_vec.getD j default).b_proof.pk ≠ g_w_i then
            .error (.executionIssue "proof point not equal to Gamma W")
          else
            match sign_round2_verify O dk k_i m_b_gamma_rec_vec
                m_b_w_rec_vec xi_com_vec vss_scheme_vec signers_vec
                party_num_id is (j + 1) with
            | .error e => .error e
            | .ok rest => .ok (alpha_ij_gamma :: rest.1, alpha_ij_wi :: rest.2)

/-- scenarios::safe_sign.  Rust Vec indexing with a statically in-range
index is modelled by getD with a default (the drivers never read out of
range on the paths the theorems below are about). -/
def safe_sign (O : SignOracles) (participants threshold party_num_id : Nat)
    (keystore : Keystore) (digest : BigInt) (signers_vec : List Nat) :
    Proto Unit :=
  Proto.bind (log "Start signature generation") fun _ =>
  let party_keys := keystore.party_key
  let shared_keys := keystore.shared_keys
  let vss_scheme_vec := keystore.vss_scheme_vec
  let paillier_key_vector := keystore.paillier_key_vec
  let y_sum := keystore.y_sum
  let priv := set_private party_keys shared_keys
  let sign_keys := O.sign_keys_create priv
    (vss_scheme_vec.getD (signers_vec.getD party_num_id 0) default)
    (signers_vec.getD party_num_id 0) signers_vec
  let xi_com_vec := O.get_commitments_to_xi vss_scheme_vec
  let cd := O.phase1_broadcast sign_keys
  let com := cd.1
  let decommit := cd.2
  let m_a_k := O.message_a sign_keys.k_i party_keys.ek
  let msg1 : SignRound1Data := ⟨com, m_a_k⟩
  Proto.bind (log "Broadcasting round 1") fun _ =>
  Proto.bind (broadcast participants party_num_id (.signRound1 msg1)) fun _ =>
  Proto.bind (log "Collecting data for round 1") fun _ =>
  Proto.bind (collect_round msg1 party_num_id participants) fun round_1 =>
  let bc1_vec := round_1.map (·.com)
  let m_a_vec := (round_1.map (·.enc)).eraseIdx party_num_id
  let built := sign_round2_build O sign_keys paillier_key_vector signers_vec
    m_a_vec party_num_id (List.range (threshold + 1)) 0
  let m_b_gamma_send_vec := built.1
  let beta_vec := built.2.1
  let m_b_w_send_vec := built.2.2.1
  let ni_vec := built.2.2.2
  Proto.bind (log "Broadcasting round 2") fun _ =>
  Proto.bind (sign_round2_sends party_num_id m_b_gamma_send_vec
    m_b_w_send_vec (List.range (threshold + 1)) 0) fun _ =>
  Proto.bind (log "Collecting data for round 2") fun _ =>
  Proto.bind (collect_round
    (⟨m_b_gamma_send_vec.getD 0 default, m_b_w_send_vec.getD 0 default⟩ :
      SignRound2Data)
    party_num_id participants) fun round_2 =>
  let round_2e := round_2.eraseIdx party_num_id
  let m_b_gamma_rec_vec := round_2e.map (·.g)
  let m_b_w_rec_vec := round_2e.map (·.w)
  Proto.bind (liftCore (sign_round2_verify O party_keys.dk sign_keys.k_i
    m_b_gamma_rec_vec m_b_w_rec_vec xi_com_vec vss_scheme_vec signers_vec
    party_num_id (List.range (threshold + 1)) 0)) fun alphas =>
  let alpha_vec := alphas.1
  let miu_vec := alphas.2
  let delta_i := O.phase2_delta_i sign_keys alpha_vec beta_vec
  let sigma := O.phase2_sigma_i sign_keys miu_vec ni_vec
  Proto.bind (log "Broadcasting round 3") fun _ =>
  Proto.bind (broadcast participants party_num_id (.signRound3 delta_i)) fun _ =>
  Proto.bind (log "Collecting data for round 3") fun _ =>
  Proto.bind (collect_round delta_i party_num_id participants) fun delta_vec =>
  let delta_inv := O.phase3_reconstruct_delta delta_vec
  Proto.bind (log "Broadcasting round 4") fun _ =>
  Proto.bind (broadcast participants party_num_id (.signRound4 decommit)) fun _ =>
  Proto.bind (log "Collecting data for round 4") fun _ =>
  Proto.bind (collect_round decommit party_num_id participants)
    fun decommit_vec0 =>
  let decomm_i := decommit_vec0.getD party_num_id default
  let decommit_vec := decommit_vec0.eraseIdx party_num_id
  let bc1_vec_e := bc1_vec.eraseIdx party_num_id
  let b_proof_vec := m_b_gamma_rec_vec.map (·.b_proof)
  Proto.bind (liftPrim "Bad gamma_i decommit ("
    (O.phase4 delta_inv b_proof_vec decommit_vec bc1_vec_e)) fun r0 =>
  let r := r0 + decomm_i.g_gamma_i * delta_inv
  let message_bn := digest
  let local_sig := O.phase5_local_sig sign_keys.k_i message_bn r sigma y_sum
  let p5 := O.phase5a_broadcast_5b_zkproof local_sig
  let phase5_com := p5.1
  let phase_5a_decom := p5.2.1
  let helgamal_proof := p5.2.2
  Proto.bind (log "Broadcasting round 5") fun _ =>
  Proto.bind (broadcast participants party_num_id (.signRound5 phase5_com)) fun _ =>
  Proto.bind (log "Collecting data for round 5") fun _ =>
  Proto.bind (collect_round phase5_com party_num_id participants)
    fun commit5a_vec0 =>
  let data6 : SignRound6Data := ⟨phase_5a_decom, helgamal_proof⟩
  Proto.bind (log "Broadcasting round 6") fun _ =>
  Proto.bind (broadcast participants party_num_id (.signRound6 data6)) fun _ =>
  Proto.bind (log "Collecting data for round 6") fun _ =>
  Proto.bind (collect_round data6 party_num_id participants)
    fun decommit5a_and_elgamal_vec0 =>
  let decommit5a_and_elgamal_vec_includes_i := decommit5a_and_elgamal_vec0
  let decommit5a_and_elgamal_vec :=
    decommit5a_and_elgamal_vec0.eraseIdx party_num_id
  let commit5a_vec := commit5a_vec0.eraseIdx party_num_id
  let phase_5a_decomm_vec := (List.range threshold).map
    (fun i => (decommit5a_and_elgamal_vec.getD i default).com)
  let phase_5a_elgamal_vec := (List.range threshold).map
    (fun i => (decommit5a_and_elgamal_vec.getD i default).proof)
  Proto.bind (liftPrim "Phase 5 failed ("
    (O.phase5c local_sig phase_5a_decomm_vec commit5a_vec
      phase_5a_elgamal_vec phase_5a_decom.V_i r)) fun pc2 =>
  let phase5_com2 := pc2.1
  let phase_5d_decom2 := pc2.2
  Proto.bind (log "Broadcasting round 7") fun _ =>
  Proto.bind (broadcast participants party_num_id (.signRound7 phase5_com2)) fun _ =>
  Proto.bind (log "Collecting data for round 7") fun _ =>
  Proto.bind (collect_round phase5_com2 party_num_id participants)
    fun commit5c_vec =>
  Proto.bind (log "Broadcasting round 8") fun _ =>
  Proto.bind (broadcast participants party_num_id (.signRound8 phase_5d_decom2)) fun _ =>
  Proto.bind (log "Collecting data for round 8") fun _ =>
  Proto.bind (collect_round phase_5d_decom2 party_num_id participants)
    fun decommit5d_vec =>
  let phase_5a_decomm_vec_includes_i := (List.range (threshold + 1)).map
    (fun i => (decommit5a_and_elgamal_vec_includes_i.getD i default).com)
  Proto.bind (liftPrim "Incorrect commitment at phase 5 ("
    (O.phase5d local_sig decommit5d_vec commit5c_vec
      phase_5a_decomm_vec_includes_i)) fun s_i =>
  Proto.bind (log "Broadcasting round 9") fun _ =>
  Proto.bind (broadcast participants party_num_id (.signRound9 s_i)) fun _ =>
  Proto.bind (log "Collecting data for round 9") fun _ =>
  Proto.bind (collect_round s_i party_num_id participants) fun s_i_vec0 =>
  let s_i_vec := s_i_vec0.eraseIdx party_num_id
  Proto.bind (liftPrim "Signature verification failed ("
    (O.output_signature local_sig s_i_vec)) fun sig =>
  Proto.bind (emit (OutgoingMessages.make_complete_signature sig)) fun _ =>
  emit .quit

/-- scenarios::sign: run safe_sign; on Err(e), send Log("Error: {e}") and
Error(Halted) (their send results are ignored by the source). -/
def sign (O : SignOracles) (participants threshold party_num_id : Nat)
    (keystore : Keystore) (digest : BigInt) (signers_vec : List Nat) :
    Proto Unit := fun p =>
  match safe_sign O participants threshold party_num_id keystore digest
      signers_vec p with
  | (.ok a, p1, w) => (.ok a, p1, w)
  | (.fail e, p1, w) =>
    (.ok (), p1, w ++ [.log ("Error: " ++ e.display), .error .halted])
  | (.panicked, p1, w) => (.panicked, p1, w)
  | (.fuelOut, p1, w) => (.fuelOut, p1, w)

/-! Section: The DKG driver (scenarios::safe_keygeneration / keygeneration,
lines 619-850) -/

/-- The external primitives called by safe_keygeneration.  aes_encrypt and
aes_decrypt live in src/common/utils.rs but are thin wrappers over the
external AES-GCM cipher, so they are oracle fields too. -/
structure KeygenOracles where
  keys_create : Nat → Keys
  phase1_broadcast_phase3_proof_of_correct_key :
    Keys → KeyGenBroadcastMessage1 × KeyGenDecommitMessage1
  x_coor_mul : GE → FE → BigInt
  bigint_to_vec : BigInt → List Nat
  aes_encrypt : List Nat → List Nat → AEAD
  aes_decrypt : List Nat → AEAD → List Nat
  bytes_to_bigint : List Nat → BigInt
  fe_to_bigint : FE → BigInt
  fe_from_bigint : BigInt → FE
  distribute : Parameters → List KeyGenDecommitMessage1 →
    List KeyGenBroadcastMessage1 →
    Except String (VerifiableSS × List FE × Nat)
  phase2_verify_vss_construct_keypair_phase3_pok_dlog :
    Parameters → List GE → List FE → List VerifiableSS → Nat →
    Except String (SharedKeys × DLogProof)
  verify_dlog_proofs :
    Parameters → List DLogProof → List GE → Except String Unit

/-- Lines 710-711: let (head, tail) = point_vec.split_at(1); y_sum =
tail.fold(head[0], +).  head[0] panics on an empty vector (modelled by a
default of 0; unreachable in the driver, whose collector returns
participants > 0 points). -/
def compute_y_sum (point_vec : List GE) : GE :=
  ((point_vec.drop 1).foldl (fun acc x => acc + x) ((point_vec.take 1).getD 0 0))

/-- Round-3 dispatch loop (lines 717-734): the source iterates (k, i) over
enumerate(1..=parties) with guard i ≠ party_num_int; since party_num_int =
party_id + 1, the guard is k ≠ party_id and the loop is driven here by k
over 0..parties, with j the running cursor into enc_keys. -/
def round3_sends (O : KeygenOracles) (party_id : Nat)
    (enc_keys : List BigInt) (secret_shares : List FE) :
    List Nat → Nat → Proto Unit
  | [], _ => Proto.pure ()
  | k :: ks, j =>
    if k = party_id then round3_sends O party_id enc_keys secret_shares ks j
    else
      let key_i := O.bigint_to_vec (enc_keys.getD j 0)
      let plaintext := O.bigint_to_vec (O.fe_to_bigint (secret_shares.getD k 0))
      let aead_pack_i := O.aes_encrypt key_i plaintext
      Proto.bind (log ("Sending round 3 to " ++ toString k)) fun _ =>
      Proto.bind (sendp2p k party_id (.keyGenRound3 aead_pack_i)) fun _ =>
      round3_sends O party_id enc_keys secret_shares ks (j + 1)

/-- Share-assembly loop (lines 750-765): i ranges over 1..=parties; the
own share (i = party_num_int) is taken from the locally generated
secret_shares, a peer share is decrypted from encrypted[j] under
enc_keys[j] with j the running excluding-self cursor. -/
def assemble_party_shares (O : KeygenOracles) (party_num_int : Nat)
    (secret_shares : List FE) (enc_keys : List BigInt)
    (encrypted : List AEAD) : List Nat → Nat → List FE
  | [], _ => []
  | i :: is, j =>
    if i = party_num_int then
      secret_shares.getD (i - 1) 0 ::
        assemble_party_shares O party_num_int secret_shares enc_keys
          encrypted is j
    else
      let aead_pack := encrypted.getD j default
      let key_i := O.bigint_to_vec (enc_keys.getD j 0)
      let out := O.aes_decrypt key_i aead_pack
      let out_bn := O.bytes_to_bigint out
      let out_fe := O.fe_from_bigint out_bn
      out_fe ::
        assemble_party_shares O party_num_int secret_shares enc_keys
          encrypted is (j + 1)

/-- Rounds 1-2 of safe_keygeneration (lines 644-697): create keys,
broadcast and collect the round-1 commitments, broadcast and collect the
round-2 decommitments. -/
def keygen_phase12 (O : KeygenOracles) (participants threshold party_id : Nat) :
    Proto (Parameters × Keys × List KeyGenBroadcastMessage1 ×
      List KeyGenDecommitMessage1) :=
  let parties := participants
  let params : Parameters := ⟨threshold, parties⟩
  let party_num_int := party_id + 1
  let party_keys := O.keys_create party_num_int
  let bd := O.phase1_broadcast_phase3_proof_of_correct_key party_keys
  let bc_i := bd.1
  let decom_i := bd.2
  Proto.bind (log "Broadcasting round 1") fun _ =>
  Proto.bind (broadcast participants party_id (.keyGenRound1 bc_i)) fun _ =>
  Proto.bind (log "Start collecting round 1") fun _ =>
  Proto.bind (collect_round bc_i party_id participants) fun bc1_vec =>
  Proto.bind (log "End of collecting round 1") fun _ =>
  Proto.bind (log "Broadcasting round 2") fun _ =>
  Proto.bind (broadcast participants party_id (.keyGenRound2 decom_i)) fun _ =>
  Proto.bind (log "Collecting round 2") fun _ =>
  Proto.bind (collect_round decom_i party_id participants) fun decom_vec =>
  Proto.pure (params, party_keys, bc1_vec, decom_vec)

/-- Lines 702-850 of safe_keygeneration, from the collected round-2
decommitments onward.  Note the round-3 collector is seeded with the
default (zero) AEAD and its own slot is removed before the share
assembly, and that the terminal sequence is Log "Send result", Complete,
Log "Send quit", Quit. -/
def keygen_after_decoms (O : KeygenOracles) (participants party_id : Nat)
    (params : Parameters) (party_keys : Keys)
    (bc1_vec : List KeyGenBroadcastMessage1)
    (decom_vec : List KeyGenDecommitMessage1) : Proto Unit :=
  let parties := participants
  let party_num_int := party_id + 1
  let point_vec := decom_vec.map (·.y_i)
  let enc_keys := (decom_vec.enum.filter (fun kd => kd.1 ≠ party_id)).map
    (fun kd => O.x_coor_mul kd.2.y_i party_keys.u_i)
  let y_sum := compute_y_sum point_vec
  Proto.bind (liftPrim "Invalid key at phase 2 ("
    (O.distribute params decom_vec bc1_vec)) fun vss_out =>
  let vss_scheme := vss_out.1
  let secret_shares := vss_out.2.1
  Proto.bind (round3_sends O party_id enc_keys secret_shares
    (List.range parties) 0) fun _ =>
  Proto.bind (log "Collecting round 3") fun _ =>
  Proto.bind (collect_round (default : AEAD) party_id participants)
    fun encrypted0 =>
  let encrypted := encrypted0.eraseIdx party_id
  let party_shares := assemble_party_shares O party_num_int secret_shares
    enc_keys encrypted (List.range' 1 parties) 0
  Proto.bind (log "Broadcasting round 4") fun _ =>
  Proto.bind (broadcast participants party_id (.keyGenRound4 vss_scheme)) fun _ =>
  Proto.bind (log "Collecting round 4") fun _ =>
  Proto.bind (collect_round vss_scheme party_id participants)
    fun vss_scheme_vec =>
  Proto.bind (liftPrim "Invalid vss ("
    (O.phase2_verify_vss_construct_keypair_phase3_pok_dlog params point_vec
      party_shares vss_scheme_vec party_num_int)) fun sd =>
  let shared_keys := sd.1
  let dlog_proof := sd.2
  Proto.bind (log "Broadcasting round 5") fun _ =>
  Proto.bind (broadcast participants party_id (.keyGenRound5 dlog_proof)) fun _ =>
  Proto.bind (log "Collecting round 5") fun _ =>
  Proto.bind (collect_round dlog_proof party_id participants)
    fun dlog_proof_vec =>
  Proto.bind (liftPrim "Incorrect DLog proof ("
    (O.verify_dlog_proofs params dlog_proof_vec point_vec)) fun _ =>
  let paillier_key_vec := (List.range parties).map
    (fun i => (bc1_vec.getD i default).e)
  Proto.bind (log "Send result") fun _ =>
  Proto.bind (emit (OutgoingMessages.make_complete_keygen
    ⟨⟨params.threshold, params.share_count⟩, party_keys, party_shares,
      shared_keys, party_id, vss_scheme_vec, paillier_key_vec, y_sum⟩)) fun _ =>
  Proto.bind (log "Send quit") fun _ =>
  emit .quit

/-- scenarios::safe_keygeneration. -/
def safe_keygeneration (O : KeygenOracles)
    (participants threshold party_id : Nat) : Proto Unit :=
  Proto.bind (keygen_phase12 O participants threshold party_id) fun st =>
  keygen_after_decoms O participants party_id st.1 st.2.1 st.2.2.1 st.2.2.2

/-- scenarios::keygeneration: run safe_keygeneration; on Err(e), send
Log("Error: {e}") and Error(Halted). -/
def keygeneration (O : KeygenOracles)
    (participants threshold party_id : Nat) : Proto Unit := fun p =>
  match safe_keygeneration O participants threshold party_id p with
  | (.ok a, p1, w) => (.ok a, p1, w)
  | (.fail e, p1, w) =>
    (.ok (), p1, w ++ [.log ("Error: " ++ e.display), .error .halted])
  | (.panicked, p1, w) => (.panicked, p1, w)
  | (.fuelOut, p1, w) => (.fuelOut, p1, w)

/-! Section: Trace shape of the drivers

A benign message is a Log or a Send: everything a driver emits before its
terminal sequence.  EndsIn Tail m says that every ok run of m emits a
benign prefix followed by a tail satisfying Tail, and every non-ok run
emits only benign messages. -/

/-- Log and Send messages (non-terminal emissions). -/
def benignB : OutgoingMessages → Bool
  | .log _ => true
  | .send _ _ _ => true
  | _ => false

/-- m only emits benign messages, on every run and outcome. -/
def EmitsOnly (m : Proto α) : Prop :=
  ∀ p : List Poll, ((m p).2.2).all benignB = true

/-- Every ok run of m emits a benign prefix then a tail satisfying Tail;
every other run emits only benign messages. -/
def EndsIn (Tail : List OutgoingMessages → Prop) (m : Proto α) : Prop :=
  ∀ p : List Poll,
    match m p with
    | (.ok _, _, w) =>
      ∃ w0 w1, w0.all benignB = true ∧ Tail w1 ∧ w = w0 ++ w1
    | (_, _, w) => w.all benignB = true

theorem bind_run_fuelOut {α β : Type} {m : Proto α} {f : α → Proto β}
    {p p1 : List Poll} {w : List OutgoingMessages}
    (h : m p = (.fuelOut, p1, w)) :
    Proto.bind m f p = (.fuelOut, p1, w) := by
  simp [Proto.bind, h]

theorem endsIn_mono {α : Type} {T1 T2 : List OutgoingMessages → Prop}
    {m : Proto α} (hT : ∀ w, T1 w → T2 w) (h : EndsIn T1 m) :
    EndsIn T2 m := by
  intro p
  have hp := h p
  rcases hm : m p with ⟨r, p1, w⟩
  rw [hm] at hp
  cases r with
  | ok a =>
    obtain ⟨w0, w1, hb, ht, hw⟩ := hp
    exact ⟨w0, w1, hb, hT w1 ht, hw⟩
  | fail e => exact hp
  | panicked => exact hp
  | fuelOut => exact hp

theorem emitsOnly_bind {α β : Type} {m : Proto α} {f : α → Proto β}
    (hm : EmitsOnly m) (hf : ∀ a, EmitsOnly (f a)) :
    EmitsOnly (Proto.bind m f) := by
  intro p
  have hmp := hm p
  rcases h : m p with ⟨r, p1, w⟩
  rw [h] at hmp
  cases r with
  | ok a =>
    rw [bind_run_ok h]
    have hfa := hf a p1
    simp only [List.all_append, Bool.and_eq_true]
    exact ⟨hmp, hfa⟩
  | fail e => rw [bind_run_fail h]; exact hmp
  | panicked => rw [bind_run_panic h]; exact hmp
  | fuelOut => rw [bind_run_fuelOut h]; exact hmp

theorem endsIn_bind {α β : Type} {Tail : List OutgoingMessages → Prop}
    {m : Proto α} {f : α → Proto β}
    (hm : EmitsOnly m) (hf : ∀ a, EndsIn Tail (f a)) :
    EndsIn Tail (Proto.bind m f) := by
  intro p
  have hmp := hm p
  rcases h : m p with ⟨r, p1, w⟩
  rw [h] at hmp
  cases r with
  | ok a =>
    rw [bind_run_ok h]
    have hfa := hf a p1
    rcases h2 : f a p1 with ⟨r2, p2, w2⟩
    rw [h2] at hfa
    cases r2 with
    | ok b =>
      obtain ⟨w0, w1, hb, ht, hw⟩ := hfa
      refine ⟨w ++ w0, w1, ?_, ht, ?_⟩
      · simp only [List.all_append, Bool.and_eq_true]; exact ⟨hmp, hb⟩
      · simp only [h2, hw, List.append_assoc]
    | fail e =>
      simp only [h2, List.all_append, Bool.and_eq_true]
      exact ⟨hmp, hfa⟩
    | panicked =>
      simp only [h2, List.all_append, Bool.and_eq_true]
      exact ⟨hmp, hfa⟩
    | fuelOut =>
      simp only [h2, List.all_append, Bool.and_eq_true]
      exact ⟨hmp, hfa⟩
  | fail e => rw [bind_run_fail h]; exact hmp
  | panicked => rw [bind_run_panic h]; exact hmp
  | fuelOut => rw [bind_run_fuelOut h]; exact hmp

theorem emitsOnly_log {s : String} : EmitsOnly (log s) := by
  intro p; simp [log, emit, benignB]

theorem emitsOnly_sendp2p {t pid : Nat} {d : MessageData} :
    EmitsOnly (sendp2p t pid d) := by
  intro p; simp [sendp2p, emit, OutgoingMessages.make_send, benignB]

theorem emitsOnly_pure {α : Type} {a : α} : EmitsOnly (Proto.pure a) := by
  intro p; simp [Proto.pure]

theorem emitsOnly_failP {α : Type} {e : CoreErrors} :
    EmitsOnly (failP (α := α) e) := by
  intro p; simp [failP]

theorem emitsOnly_panicP {α : Type} : EmitsOnly (panicP (α := α)) := by
  intro p; simp [panicP]

theorem emitsOnly_pollOnce : EmitsOnly pollOnce := by
  intro p; cases p <;> simp [pollOnce]

theorem emitsOnly_liftPrim {α : Type} {pre : String} {x : Except String α} :
    EmitsOnly (liftPrim pre x) := by
  cases x <;> intro p <;> simp [liftPrim, Proto.pure, failP]

theorem emitsOnly_liftCore {α : Type} {x : Except CoreErrors α} :
    EmitsOnly (liftCore x) := by
  cases x <;> intro p <;> simp [liftCore, Proto.pure, failP]

theorem emitsOnly_broadcast_go {pid : Nat} {d : MessageData} :
    ∀ {ts : List Nat}, EmitsOnly (broadcast_go pid d ts) := by
  intro ts
  induction ts with
  | nil => exact emitsOnly_pure
  | cons t ts ih =>
    exact emitsOnly_bind emitsOnly_sendp2p fun _ => ih

theorem emitsOnly_broadcast {participants pid : Nat} {d : MessageData} :
    EmitsOnly (broadcast participants pid d) :=
  emitsOnly_broadcast_go

theorem emitsOnly_process_incoming {T : Type} [FromData T]
    {vec : List (Option T)} {sender : Nat} {data : MessageData} :
    EmitsOnly (process_incoming vec sender data) := by
  intro p
  by_cases h : sender < vec.length
  · cases hp : FromData.get_from_data (α := T) data with
    | none => rw [process_incoming_run_none vec sender data p h hp]; simp [benignB]
    | some t => rw [process_incoming_run_some vec sender data p t h hp]; simp [benignB]
  · rw [process_incoming_run_oob vec sender data p (Nat.not_lt.1 h)]; simp

theorem emitsOnly_collect_loop {T : Type} [FromData T] [Inhabited T] :
    ∀ (fuel : Nat) (timeout : Int) (vec : List (Option T)),
      EmitsOnly (collect_loop fuel timeout vec) := by
  intro fuel
  induction fuel with
  | zero => intro timeout vec p; simp [collect_loop]
  | succ fuel ih =>
    intro timeout vec p
    by_cases ht : timeout - 100 ≤ 0
    · simp [collect_loop, ht, benignB]
    · by_cases hall : vec.all (·.isSome)
      · by_cases hany : vec.any (·.isNone) <;>
          simp [collect_loop, ht, hall, hany]
      · cases p with
        | nil =>
          simp only [collect_loop, if_neg ht, if_neg hall, bind_pollOnce_nil]
          exact ih (timeout - 100) vec []
        | cons q rest =>
          simp only [collect_loop, if_neg ht, if_neg hall, bind_pollOnce_cons]
          cases q with
          | empty => exact ih (timeout - 100) vec rest
          | disconnected => simp
          | msg m =>
            cases m with
            | send s tgt d =>
              exact emitsOnly_bind emitsOnly_process_incoming
                (fun vec2 => ih (timeout - 100) vec2) rest

theorem emitsOnly_collect_round {T : Type} [FromData T] [Inhabited T]
    {my_value : T} {party_id participants : Nat} :
    EmitsOnly (collect_round my_value party_id participants) := by
  intro p
  rw [collect_round]
  by_cases h : party_id < participants
  · rw [if_pos h]; exact emitsOnly_collect_loop 30 3000 _ p
  · rw [if_neg h]; exact emitsOnly_panicP p

theorem emitsOnly_sign_round2_sends {pid : Nat} {gs ws : List MessageB} :
    ∀ {is : List Nat} {j : Nat},
      EmitsOnly (sign_round2_sends pid gs ws is j) := by
  intro is
  induction is with
  | nil => intro j; exact emitsOnly_pure
  | cons i is ih =>
    intro j
    by_cases h : i = pid
    · simp only [sign_round2_sends, if_pos h]; exact ih
    · simp only [sign_round2_sends, if_neg h]
      exact emitsOnly_bind emitsOnly_sendp2p fun _ => ih

theorem emitsOnly_round3_sends {O : KeygenOracles} {pid : Nat}
    {enc_keys : List BigInt} {secret_shares : List FE} :
    ∀ {is : List Nat} {j : Nat},
      EmitsOnly (round3_sends O pid enc_keys secret_shares is j) := by
  intro is
  induction is with
  | nil => intro j; exact emitsOnly_pure
  | cons k ks ih =>
    intro j
    by_cases h : k = pid
    · simp only [round3_sends, if_pos h]; exact ih
    · simp only [round3_sends, if_neg h]
      exact emitsOnly_bind emitsOnly_log fun _ =>
        emitsOnly_bind emitsOnly_sendp2p fun _ => ih

/-- Terminal trace shape of safe_sign: Complete(Sign) immediately followed
by Quit. -/
def sign_tail (w : List OutgoingMessages) : Prop :=
  ∃ s, w = [.complete (.sign s), .quit]

/-- Terminal trace shape of safe_keygeneration: Complete(KeyGen carrying
the keystore's y_sum as public key), then the Log "Send quit", then Quit;
the parameter pins the y_sum value. -/
def kg_tail (ys : GE) (w : List OutgoingMessages) : Prop :=
  ∃ ks : Keystore, ks.y_sum = ys ∧
    w = [.complete (.keyGen ks ks.y_sum), .log "Send quit", .quit]

theorem endsIn_sign_terminal (sig : Signature) :
    EndsIn sign_tail
      (Proto.bind (emit (OutgoingMessages.make_complete_signature sig))
        fun _ => emit .quit) := by
  intro p
  have h : Proto.bind (emit (OutgoingMessages.make_complete_signature sig))
      (fun _ => emit .quit) p =
      (.ok (), p, [.complete (.sign sig), .quit]) := rfl
  rw [h]
  exact ⟨[], [.complete (.sign sig), .quit], rfl, ⟨sig, rfl⟩, rfl⟩

theorem endsIn_keygen_terminal (ks : Keystore) (ys : GE)
    (hys : ks.y_sum = ys) :
    EndsIn (kg_tail ys)
      (Proto.bind (emit (OutgoingMessages.make_complete_keygen ks)) fun _ =>
        Proto.bind (log "Send quit") fun _ => emit .quit) := by
  subst hys
  intro p
  have h : Proto.bind (emit (OutgoingMessages.make_complete_keygen ks))
      (fun _ => Proto.bind (log "Send quit") fun _ => emit .quit) p =
      (.ok (), p,
        [.complete (.keyGen ks ks.y_sum), .log "Send quit", .quit]) := rfl
  rw [h]
  exact ⟨[], [.complete (.keyGen ks ks.y_sum), .log "Send quit", .quit],
    rfl, ⟨ks, rfl, rfl⟩, rfl⟩

/-- Every run of safe_sign emits a benign prefix and then, exactly on the
ok outcome, Complete(Sign) immediately followed by Quit. -/
theorem safe_sign_ends (O : SignOracles) (pa th id : Nat) (ks : Keystore)
    (dg : BigInt) (sv : List Nat) :
    EndsIn sign_tail (safe_sign O pa th id ks dg sv) := by
  unfold safe_sign
  refine endsIn_bind emitsOnly_log fun _ => ?_
  refine endsIn_bind emitsOnly_log fun _ => ?_
  refine endsIn_bind emitsOnly_broadcast fun _ => ?_
  refine endsIn_bind emitsOnly_log fun _ => ?_
  refine endsIn_bind emitsOnly_collect_round fun round_1 => ?_
  refine endsIn_bind emitsOnly_log fun _ => ?_
  refine endsIn_bind emitsOnly_sign_round2_sends fun _ => ?_
  refine endsIn_bind emitsOnly_log fun _ => ?_
  refine endsIn_bind emitsOnly_collect_round fun round_2 => ?_
  refine endsIn_bind emitsOnly_liftCore fun alphas => ?_
  refine endsIn_bind emitsOnly_log fun _ => ?_
  refine endsIn_bind emitsOnly_broadcast fun _ => ?_
  refine endsIn_bind emitsOnly_log fun _ => ?_
  refine endsIn_bind emitsOnly_collect_round fun delta_vec => ?_
  refine endsIn_bind emitsOnly_log fun _ => ?_
  refine endsIn_bind emitsOnly_broadcast fun _ => ?_
  refine endsIn_bind emitsOnly_log fun _ => ?_
  refine endsIn_bind emitsOnly_collect_round fun dv0 => ?_
  refine endsIn_bind emitsOnly_liftPrim fun r0 => ?_
  refine endsIn_bind emitsOnly_log fun _ => ?_
  refine endsIn_bind emitsOnly_broadcast fun _ => ?_
  refine endsIn_bind emitsOnly_log fun _ => ?_
  refine endsIn_bind emitsOnly_collect_round fun c5a => ?_
  refine endsIn_bind emitsOnly_log fun _ => ?_
  refine endsIn_bind emitsOnly_broadcast fun _ => ?_
  refine endsIn_bind emitsOnly_log fun _ => ?_
  refine endsIn_bind emitsOnly_collect_round fun d56 => ?_
  refine endsIn_bind emitsOnly_liftPrim fun pc2 => ?_
  refine endsIn_bind emitsOnly_log fun _ => ?_
  refine endsIn_bind emitsOnly_broadcast fun _ => ?_
  refine endsIn_bind emitsOnly_log fun _ => ?_
  refine endsIn_bind emitsOnly_collect_round fun c5c => ?_
  refine endsIn_bind emitsOnly_log fun _ => ?_
  refine endsIn_bind emitsOnly_broadcast fun _ => ?_
  refine endsIn_bind emitsOnly_log fun _ => ?_
  refine endsIn_bind emitsOnly_collect_round fun d5d => ?_
  refine endsIn_bind emitsOnly_liftPrim fun s_i => ?_
  refine endsIn_bind emitsOnly_log fun _ => ?_
  refine endsIn_bind emitsOnly_broadcast fun _ => ?_
  refine endsIn_bind emitsOnly_log fun _ => ?_
  refine endsIn_bind emitsOnly_collect_round fun sv0 => ?_
  refine endsIn_bind emitsOnly_liftPrim fun sig => ?_
  exact endsIn_sign_terminal sig

theorem emitsOnly_keygen_phase12 (O : KeygenOracles)
    (pa th id : Nat) : EmitsOnly (keygen_phase12 O pa th id) := by
  unfold keygen_phase12
  refine emitsOnly_bind emitsOnly_log fun _ => ?_
  refine emitsOnly_bind emitsOnly_broadcast fun _ => ?_
  refine emitsOnly_bind emitsOnly_log fun _ => ?_
  refine emitsOnly_bind emitsOnly_collect_round fun bc1 => ?_
  refine emitsOnly_bind emitsOnly_log fun _ => ?_
  refine emitsOnly_bind emitsOnly_log fun _ => ?_
  refine emitsOnly_bind emitsOnly_broadcast fun _ => ?_
  refine emitsOnly_bind emitsOnly_log fun _ => ?_
  refine emitsOnly_bind emitsOnly_collect_round fun dv => ?_
  exact emitsOnly_pure

/-- Every run of the post-decommitment part of the DKG driver emits a
benign prefix and then, exactly on the ok outcome, Complete(KeyGen) whose
keystore's y_sum (also the emitted public key) is compute_y_sum of the
y_i of the collected decommitments, then a Log, then Quit. -/
theorem keygen_after_decoms_ends (O : KeygenOracles) (pa id : Nat)
    (params : Parameters) (pk : Keys)
    (bc : List KeyGenBroadcastMessage1) (dv : List KeyGenDecommitMessage1) :
    EndsIn (kg_tail (compute_y_sum (dv.map (·.y_i))))
      (keygen_after_decoms O pa id params pk bc dv) := by
  unfold keygen_after_decoms
  refine endsIn_bind emitsOnly_liftPrim fun vss_out => ?_
  refine endsIn_bind emitsOnly_round3_sends fun _ => ?_
  refine endsIn_bind emitsOnly_log fun _ => ?_
  refine endsIn_bind emitsOnly_collect_round fun enc0 => ?_
  refine endsIn_bind emitsOnly_log fun _ => ?_
  refine endsIn_bind emitsOnly_broadcast fun _ => ?_
  refine endsIn_bind emitsOnly_log fun _ => ?_
  refine endsIn_bind emitsOnly_collect_round fun vssv => ?_
  refine endsIn_bind emitsOnly_liftPrim fun sd => ?_
  refine endsIn_bind emitsOnly_log fun _ => ?_
  refine endsIn_bind emitsOnly_broadcast fun _ => ?_
  refine endsIn_bind emitsOnly_log fun _ => ?_
  refine endsIn_bind emitsOnly_collect_round fun dlp => ?_
  refine endsIn_bind emitsOnly_liftPrim fun u => ?_
  refine endsIn_bind emitsOnly_log fun _ => ?_
  exact endsIn_keygen_terminal _ _ rfl

/-- Shape of the keygen terminal, with the payload abstracted. -/
def kg_shape (w : List OutgoingMessages) : Prop :=
  ∃ (ks : Keystore) (pk : GE),
    w = [.complete (.keyGen ks pk), .log "Send quit", .quit]

theorem safe_keygeneration_ends (O : KeygenOracles) (pa th id : Nat) :
    EndsIn kg_shape (safe_keygeneration O pa th id) := by
  unfold safe_keygeneration
  refine endsIn_bind (emitsOnly_keygen_phase12 O pa th id) fun st => ?_
  refine endsIn_mono ?_ (keygen_after_decoms_ends O pa id st.1 st.2.1
    st.2.2.1 st.2.2.2)
  intro w hw
  obtain ⟨ks, _, hw⟩ := hw
  exact ⟨ks, ks.y_sum, hw⟩

theorem no_quit_of_benign {w : List OutgoingMessages}
    (h : w.all benignB = true) : OutgoingMessages.quit ∉ w := by
  intro hm
  have hq := List.all_eq_true.1 h _ hm
  simp [benignB] at hq

/-- True when every Error message of the trace carries the Halted code. -/
def only_halted_errors (w : List OutgoingMessages) : Bool :=
  w.all fun m =>
    match m with
    | .error e => decide (e = .halted)
    | _ => true

theorem only_halted_of_benign {w : List OutgoingMessages}
    (h : w.all benignB = true) : only_halted_errors w = true := by
  rw [only_halted_errors, List.all_eq_true]
  intro m hm
  have hb := List.all_eq_true.1 h m hm
  cases m <;> simp_all [benignB]

/-! Section: Fixtures: concrete oracles, keystore and schedules used by the
counterexamples and witnesses below.  The oracle instances make every
external primitive succeed with fixed outputs. -/

def KO0 : KeygenOracles where
  keys_create := fun i => ⟨2, 3, 0, ⟨0⟩, i⟩
  phase1_broadcast_phase3_proof_of_correct_key := fun _ =>
    (⟨⟨5⟩, 0, 0⟩, ⟨0, 11⟩)
  x_coor_mul := fun g u => g + u
  bigint_to_vec := fun _ => []
  aes_encrypt := fun _ _ => ⟨[1], [2]⟩
  aes_decrypt := fun _ _ => [3]
  bytes_to_bigint := fun _ => 4
  fe_to_bigint := fun x => x
  fe_from_bigint := fun x => x
  distribute := fun _ _ _ => .ok (⟨7⟩, [21, 22], 0)
  phase2_verify_vss_construct_keypair_phase3_pok_dlog := fun _ _ _ _ _ =>
    .ok (⟨9⟩, ⟨13, 0⟩)
  verify_dlog_proofs := fun _ _ _ => .ok ()

def SO0 : SignOracles where
  sign_keys_create := fun _ _ _ _ => ⟨1, 2, 3, 4, 5⟩
  get_commitments_to_xi := fun _ => [0, 0]
  phase1_broadcast := fun _ => (⟨6⟩, ⟨7, 0⟩)
  message_a := fun _ _ => ⟨8⟩
  message_b := fun _ _ _ => (⟨⟨9, 0⟩, 0⟩, 10)
  verify_proofs_get_alpha := fun _ _ _ => .ok 11
  update_commitments_to_xi := fun _ _ _ _ => 9
  phase2_delta_i := fun _ _ _ => 12
  phase2_sigma_i := fun _ _ _ => 13
  phase3_reconstruct_delta := fun _ => 14
  phase4 := fun _ _ _ _ => .ok 15
  phase5_local_sig := fun _ _ _ _ _ => ⟨16⟩
  phase5a_broadcast_5b_zkproof := fun _ => (⟨17⟩, ⟨18, 0⟩, ⟨19⟩)
  phase5c := fun _ _ _ _ _ _ => .ok (⟨20⟩, ⟨21⟩)
  phase5d := fun _ _ _ _ => .ok 22
  output_signature := fun _ _ => .ok ⟨23, 24⟩

def ks0 : Keystore :=
  ⟨⟨1, 2⟩, ⟨2, 3, 0, ⟨0⟩, 1⟩, [21, 4], ⟨9⟩, 0, [⟨7⟩, ⟨8⟩], [⟨5⟩, ⟨6⟩], 28⟩

/-- A schedule that answers each of the five keygen collects of party 0
(of 2) with the matching round message from party 1. -/
def kgpolls0 : List Poll :=
  [.msg (.send 1 0 (.keyGenRound1 ⟨⟨6⟩, 0, 0⟩)),
   .msg (.send 1 0 (.keyGenRound2 ⟨0, 17⟩)),
   .msg (.send 1 0 (.keyGenRound3 ⟨[9], [9]⟩)),
   .msg (.send 1 0 (.keyGenRound4 ⟨8⟩)),
   .msg (.send 1 0 (.keyGenRound5 ⟨14, 0⟩))]

/-- A schedule answering the three collects of keygen_after_decoms. -/
def kgpolls3 : List Poll :=
  [.msg (.send 1 0 (.keyGenRound3 ⟨[9], [9]⟩)),
   .msg (.send 1 0 (.keyGenRound4 ⟨8⟩)),
   .msg (.send 1 0 (.keyGenRound5 ⟨14, 0⟩))]

/-! Section: Claims about the drivers -/

/-- Any message that is a Complete is immediately followed by a Quit. -/
def complete_immediately_quit (w : List OutgoingMessages) : Bool :=
  (w.zip w.tail).all fun ab =>
    match ab.1 with
    | .complete _ => decide (ab.2 = .quit)
    | _ => true

def has_complete (w : List OutgoingMessages) : Bool :=
  w.any fun m =>
    match m with
    | .complete _ => true
    | _ => false

/-- C3 (counterexample).  A successful keygen run (2 parties, trivial
primitives, every round answered) emits a Complete that is NOT immediately
followed by Quit: the source logs "Send quit" in between (lines 843-847),
so the original claim's "immediately" fails for keygen. -/
theorem keygen_complete_not_immediately_quit :
    (keygeneration KO0 2 1 0 kgpolls0).1 = .ok () ∧
    has_complete ((keygeneration KO0 2 1 0 kgpolls0).2.2) = true ∧
    complete_immediately_quit ((keygeneration KO0 2 1 0 kgpolls0).2.2) =
      false := by
  exact ⟨rfl, rfl, rfl⟩

/-- C3 (amended).  For every run of the sign or keygen wrapper: on the ok
path of the underlying driver the trace is a benign (Log/Send) prefix
followed by Complete and a final Quit - immediately adjacent in sign, with
exactly the Log "Send quit" in between in keygen; on the Err path the
trace is a benign prefix followed by Log("Error: ...") and Error(Halted),
and no Quit is emitted; a panicking run emits only benign messages. -/
theorem terminal_event_grammar (OS : SignOracles) (pa th id : Nat)
    (kst : Keystore) (dg : BigInt) (sv : List Nat) (OK : KeygenOracles)
    (pa2 th2 id2 : Nat) (p q : List Poll) :
    ((∃ w0 s, w0.all benignB = true ∧
        (sign OS pa th id kst dg sv p).2.2 =
          w0 ++ [.complete (.sign s), .quit]) ∨
      (∃ w0 e, w0.all benignB = true ∧
        (sign OS pa th id kst dg sv p).2.2 =
          w0 ++ [.log ("Error: " ++ CoreErrors.display e), .error .halted] ∧
        OutgoingMessages.quit ∉ (sign OS pa th id kst dg sv p).2.2) ∨
      ((sign OS pa th id kst dg sv p).2.2).all benignB = true) ∧
    ((∃ w0 ks2 pk2, w0.all benignB = true ∧
        (keygeneration OK pa2 th2 id2 q).2.2 =
          w0 ++ [.complete (.keyGen ks2 pk2), .log "Send quit", .quit]) ∨
      (∃ w0 e, w0.all benignB = true ∧
        (keygeneration OK pa2 th2 id2 q).2.2 =
          w0 ++ [.log ("Error: " ++ CoreErrors.display e), .error .halted] ∧
        OutgoingMessages.quit ∉ (keygeneration OK pa2 th2 id2 q).2.2) ∨
      ((keygeneration OK pa2 th2 id2 q).2.2).all benignB = true) := by
  constructor
  · have h := safe_sign_ends OS pa th id kst dg sv p
    rcases hr : safe_sign OS pa th id kst dg sv p with ⟨r, p1, w⟩
    rw [hr] at h
    cases r with
    | ok a =>
      have htr : (sign OS pa th id kst dg sv p).2.2 = w := by
        simp [sign, hr]
      obtain ⟨w0, w1, hb, ⟨s, hw1⟩, hw⟩ := h
      exact Or.inl ⟨w0, s, hb, by rw [htr, hw, hw1]⟩
    | fail e =>
      have htr : (sign OS pa th id kst dg sv p).2.2 =
          w ++ [.log ("Error: " ++ CoreErrors.display e), .error .halted] := by
        simp [sign, hr]
      refine Or.inr (Or.inl ⟨w, e, h, htr, ?_⟩)
      rw [htr]
      intro hm
      rcases List.mem_append.1 hm with hm | hm
      · exact no_quit_of_benign h hm
      · simp at hm
    | panicked =>
      have htr : (sign OS pa th id kst dg sv p).2.2 = w := by
        simp [sign, hr]
      exact Or.inr (Or.inr (htr ▸ h))
    | fuelOut =>
      have htr : (sign OS pa th id kst dg sv p).2.2 = w := by
        simp [sign, hr]
      exact Or.inr (Or.inr (htr ▸ h))
  · have h := safe_keygeneration_ends OK pa2 th2 id2 q
    rcases hr : safe_keygeneration OK pa2 th2 id2 q with ⟨r, p1, w⟩
    rw [hr] at h
    cases r with
    | ok a =>
      have htr : (keygeneration OK pa2 th2 id2 q).2.2 = w := by
        simp [keygeneration, hr]
      obtain ⟨w0, w1, hb, ⟨ks2, pk2, hw1⟩, hw⟩ := h
      exact Or.inl ⟨w0, ks2, pk2, hb, by rw [htr, hw, hw1]⟩
    | fail e =>
      have htr : (keygeneration OK pa2 th2 id2 q).2.2 =
          w ++ [.log ("Error: " ++ CoreErrors.display e), .error .halted] := by
        simp [keygeneration, hr]
      refine Or.inr (Or.inl ⟨w, e, h, htr, ?_⟩)
      rw [htr]
      intro hm
      rcases List.mem_append.1 hm with hm | hm
      · exact no_quit_of_benign h hm
      · simp at hm
    | panicked =>
      have htr : (keygeneration OK pa2 th2 id2 q).2.2 = w := by
        simp [keygeneration, hr]
      exact Or.inr (Or.inr (htr ▸ h))
    | fuelOut =>
      have htr : (keygeneration OK pa2 th2 id2 q).2.2 = w := by
        simp [keygeneration, hr]
      exact Or.inr (Or.inr (htr ▸ h))

/-- C2 (counterexample).  A sign run whose round-1 collection times out
(no message ever arrives) puts Error(Halted) on the emitter - with the
cause only in the preceding Log text - and never the CollectTimeout code
the claim announces. -/
theorem sign_timeout_emits_halted_not_collect_code :
    (.error .halted) ∈ (sign SO0 2 1 0 ks0 99 [0, 1] []).2.2 ∧
    (.error .collectTimeout) ∉ (sign SO0 2 1 0 ks0 99 [0, 1] []).2.2 ∧
    (sign SO0 2 1 0 ks0 99 [0, 1] []).2.2.getLast? =
      some (.error .halted) ∧
    (.log "Error: Timeout (Collecting time is over)") ∈
      (sign SO0 2 1 0 ks0 99 [0, 1] []).2.2 := by
  exact ⟨by decide, by decide, by rfl, by decide⟩

/-- C2 (amended).  On every run of the sign or keygen wrapper, every
Error message observable on the emitter carries the Halted code: the
collection-failure codes CollectTimeout, CollectUnexpectedData and
CollectDisconnected are never emitted (the cause is distinguishable only
through the preceding Log text). -/
theorem emitter_error_codes_always_halted (OS : SignOracles)
    (pa th id : Nat) (kst : Keystore) (dg : BigInt) (sv : List Nat)
    (OK : KeygenOracles) (pa2 th2 id2 : Nat) (p q : List Poll) :
    only_halted_errors ((sign OS pa th id kst dg sv p).2.2) = true ∧
    only_halted_errors ((keygeneration OK pa2 th2 id2 q).2.2) = true := by
  constructor
  · have h := safe_sign_ends OS pa th id kst dg sv p
    rcases hr : safe_sign OS pa th id kst dg sv p with ⟨r, p1, w⟩
    rw [hr] at h
    cases r with
    | ok a =>
      have htr : (sign OS pa th id kst dg sv p).2.2 = w := by
        simp [sign, hr]
      obtain ⟨w0, w1, hb, ⟨s, hw1⟩, hw⟩ := h
      rw [htr, hw, hw1, only_halted_errors, List.all_append,
        Bool.and_eq_true]
      exact ⟨only_halted_of_benign hb, by rfl⟩
    | fail e =>
      have htr : (sign OS pa th id kst dg sv p).2.2 =
          w ++ [.log ("Error: " ++ CoreErrors.display e), .error .halted] := by
        simp [sign, hr]
      rw [htr, only_halted_errors, List.all_append, Bool.and_eq_true]
      exact ⟨only_halted_of_benign h, by rfl⟩
    | panicked =>
      have htr : (sign OS pa th id kst dg sv p).2.2 = w := by
        simp [sign, hr]
      rw [htr]
      exact only_halted_of_benign h
    | fuelOut =>
      have htr : (sign OS pa th id kst dg sv p).2.2 = w := by
        simp [sign, hr]
      rw [htr]
      exact only_halted_of_benign h
  · have h := safe_keygeneration_ends OK pa2 th2 id2 q
    rcases hr : safe_keygeneration OK pa2 th2 id2 q with ⟨r, p1, w⟩
    rw [hr] at h
    cases r with
    | ok a =>
      have htr : (keygeneration OK pa2 th2 id2 q).2.2 = w := by
        simp [keygeneration, hr]
      obtain ⟨w0, w1, hb, ⟨ks2, pk2, hw1⟩, hw⟩ := h
      rw [htr, hw, hw1, only_halted_errors, List.all_append,
        Bool.and_eq_true]
      exact ⟨only_halted_of_benign hb, by rfl⟩
    | fail e =>
      have htr : (keygeneration OK pa2 th2 id2 q).2.2 =
          w ++ [.log ("Error: " ++ CoreErrors.display e), .error .halted] := by
        simp [keygeneration, hr]
      rw [htr, only_halted_errors, List.all_append, Bool.and_eq_true]
      exact ⟨only_halted_of_benign h, by rfl⟩
    | panicked =>
      have htr : (keygeneration OK pa2 th2 id2 q).2.2 = w := by
        simp [keygeneration, hr]
      rw [htr]
      exact only_halted_of_benign h
    | fuelOut =>
      have htr : (keygeneration OK pa2 th2 id2 q).2.2 = w := by
        simp [keygeneration, hr]
      rw [htr]
      exact only_halted_of_benign h

theorem foldl_add_eq_sum (xs : List Int) :
    ∀ init : Int, xs.foldl (· + ·) init = init + xs.sum := by
  induction xs with
  | nil => intro init; simp
  | cons x xs ih =>
    intro init
    rw [List.foldl_cons, ih, List.sum_cons]
    ring

/-- Lines 710-711 compute the sum of all points: the split_at(1) fold
equals List.sum on any nonempty vector. -/
theorem compute_y_sum_eq_sum (l : List GE) (h : l ≠ []) :
    compute_y_sum l = l.sum := by
  cases l with
  | nil => exact absurd rfl h
  | cons x xs =>
    show (((x :: xs).drop 1).foldl (fun acc y => acc + y)
      (((x :: xs).take 1).getD 0 0)) = (x :: xs).sum
    simp only [List.drop_succ_cons, List.drop_zero, List.take_succ_cons,
      List.take_zero, List.getD]
    rw [show ([x].get? 0).getD 0 = x from rfl]
    rw [foldl_add_eq_sum xs x, List.sum_cons]

/-- C5.  On every ok run of the DKG driver after the round-2 collection
decom_vec (nonempty), the emitted Complete(KeyGen) carries a keystore
whose y_sum - also the emitted public key, by make_complete_keygen -
equals the sum of the y_i points of all collected round-2 decommitments,
own included. -/
theorem keygen_y_sum_is_decommitment_sum (O : KeygenOracles)
    (pa id : Nat) (params : Parameters) (pk : Keys)
    (bc : List KeyGenBroadcastMessage1) (dv : List KeyGenDecommitMessage1)
    (p : List Poll) (hne : dv ≠ [])
    (hok : (keygen_after_decoms O pa id params pk bc dv p).1 = .ok ()) :
    ∃ ks : Keystore,
      .complete (.keyGen ks ks.y_sum) ∈
        (keygen_after_decoms O pa id params pk bc dv p).2.2 ∧
      ks.y_sum = (dv.map (·.y_i)).sum := by
  have h := keygen_after_decoms_ends O pa id params pk bc dv p
  rcases hr : keygen_after_decoms O pa id params pk bc dv p with ⟨r, p1, w⟩
  rw [hr] at h hok
  cases r with
  | ok a =>
    obtain ⟨w0, w1, hb, ⟨ks, hys, hw1⟩, hw⟩ := h
    refine ⟨ks, ?_, ?_⟩
    · show _ ∈ w
      rw [hw, hw1]
      simp
    · rw [hys, compute_y_sum_eq_sum]
      simpa using hne
  | fail e => simp at hok
  | panicked => simp at hok
  | fuelOut => simp at hok

/-- Witness for C5 at a concrete input: 2 parties, trivially succeeding
primitives, both decommitments collected (y points 11 and 17); the
Complete message carries y_sum 28 = 11 + 17. -/
theorem keygen_y_sum_is_decommitment_sum_witness :
    (([⟨0, 11⟩, ⟨0, 17⟩] : List KeyGenDecommitMessage1) ≠ [] ∧
      (keygen_after_decoms KO0 2 0 ⟨1, 2⟩ ⟨2, 3, 0, ⟨0⟩, 1⟩
        [⟨⟨5⟩, 0, 0⟩, ⟨⟨6⟩, 0, 0⟩] [⟨0, 11⟩, ⟨0, 17⟩] kgpolls3).1 =
        .ok ()) ∧
    (∃ ks : Keystore,
      .complete (.keyGen ks ks.y_sum) ∈
        (keygen_after_decoms KO0 2 0 ⟨1, 2⟩ ⟨2, 3, 0, ⟨0⟩, 1⟩
          [⟨⟨5⟩, 0, 0⟩, ⟨⟨6⟩, 0, 0⟩] [⟨0, 11⟩, ⟨0, 17⟩] kgpolls3).2.2 ∧
      ks.y_sum = (([⟨0, 11⟩, ⟨0, 17⟩] :
        List KeyGenDecommitMessage1).map (·.y_i)).sum) := by
  refine ⟨⟨by decide, by rfl⟩, ?_⟩
  exact keygen_y_sum_is_decommitment_sum KO0 2 0 ⟨1, 2⟩ ⟨2, 3, 0, ⟨0⟩, 1⟩
    [⟨⟨5⟩, 0, 0⟩, ⟨⟨6⟩, 0, 0⟩] [⟨0, 11⟩, ⟨0, 17⟩] kgpolls3
    (by decide) (by rfl)

/-- Property predicate written from the claim's wording, to compare with
sign_round2_verify: for every co-signer i ≠ party_num_id, the gamma
B-proof verifies, the w B-proof verifies, and the w message's proof public
point equals the g_w reconstructed from the Feldman VSS commitments. -/
def sign_round2_checks_spec (O : SignOracles) (dk : Nat) (k_i : FE)
    (m_b_gamma_rec_vec m_b_w_rec_vec : List MessageB)
    (xi_com_vec : List GE) (vss_scheme_vec : List VerifiableSS)
    (signers_vec : List Nat) (party_num_id : Nat) :
    List Nat → Nat → Bool
  | [], _ => true
  | i :: is, j =>
    if i = party_num_id then
      sign_round2_checks_spec O dk k_i m_b_gamma_rec_vec m_b_w_rec_vec
        xi_com_vec vss_scheme_vec signers_vec party_num_id is j
    else
      (match O.verify_proofs_get_alpha (m_b_gamma_rec_vec.getD j default)
          dk k_i with
        | .ok _ => true
        | .error _ => false) &&
      (match O.verify_proofs_get_alpha (m_b_w_rec_vec.getD j default)
          dk k_i with
        | .ok _ => true
        | .error _ => false) &&
      decide ((m_b_w_rec_vec.getD j default).b_proof.pk =
        O.update_commitments_to_xi
          (xi_com_vec.getD (signers_vec.getD i 0) 0)
          (vss_scheme_vec.getD (signers_vec.getD i 0) default)
          (signers_vec.getD i 0) signers_vec) &&
      sign_round2_checks_spec O dk k_i m_b_gamma_rec_vec m_b_w_rec_vec
        xi_com_vec vss_scheme_vec signers_vec party_num_id is (j + 1)

/-- C4.  The round-2 verification loop of safe_sign succeeds exactly when,
for every co-signer i ≠ self, both received MtA B-proofs verify and the
w message's proof point equals the reconstructed g_w; every failure is an
ExecutionIssue, and (third part) when some check fails, the whole
continuation of the session - the delta_i computation bound after the
loop in safe_sign, and everything beyond - is skipped: the run fails with
the ExecutionIssue error having emitted nothing. -/
theorem sign_round2_verification_gate (O : SignOracles) (dk : Nat)
    (k_i : FE) (gvec wvec : List MessageB) (xic : List GE)
    (vssv : List VerifiableSS) (sv : List Nat) (pid : Nat)
    (is : List Nat) (j : Nat) :
    (∀ out, sign_round2_verify O dk k_i gvec wvec xic vssv sv pid is j =
        .ok out →
      sign_round2_checks_spec O dk k_i gvec wvec xic vssv sv pid is j =
        true) ∧
    (∀ e, sign_round2_verify O dk k_i gvec wvec xic vssv sv pid is j =
        .error e →
      (∃ s, e = .executionIssue s) ∧
      sign_round2_checks_spec O dk k_i gvec wvec xic vssv sv pid is j =
        false) ∧
    (sign_round2_checks_spec O dk k_i gvec wvec xic vssv sv pid is j =
        false →
      ∀ (f : List FE × List FE → Proto Unit) (p : List Poll),
        ∃ s, Proto.bind
          (liftCore (sign_round2_verify O dk k_i gvec wvec xic vssv sv pid
            is j)) f p =
          (.fail (.executionIssue s), p, [])) := by
  have main : ∀ (is : List Nat) (j : Nat),
      (∀ out, sign_round2_verify O dk k_i gvec wvec xic vssv sv pid is j =
          .ok out →
        sign_round2_checks_spec O dk k_i gvec wvec xic vssv sv pid is j =
          true) ∧
      (∀ e, sign_round2_verify O dk k_i gvec wvec xic vssv sv pid is j =
          .error e →
        (∃ s, e = .executionIssue s) ∧
        sign_round2_checks_spec O dk k_i gvec wvec xic vssv sv pid is j =
          false) := by
    intro is
    induction is with
    | nil =>
      intro j
      constructor
      · intro out _
        rfl
      · intro e he
        simp [sign_round2_verify] at he
    | cons i is ih =>
      intro j
      by_cases hi : i = pid
      · simpa [sign_round2_verify, sign_round2_checks_spec, hi] using ih j
      · constructor
        · intro out hout
          rw [sign_round2_verify, if_neg hi] at hout
          rw [sign_round2_checks_spec, if_neg hi]
          rcases hg : O.verify_proofs_get_alpha (gvec.getD j default)
              dk k_i with eg | ag
          · rw [hg] at hout; simp at hout
          · rw [hg] at hout
            rcases hw : O.verify_proofs_get_alpha (wvec.getD j default)
                dk k_i with ew | aw
            · rw [hw] at hout; simp at hout
            · rw [hw] at hout
              dsimp only at hout
              by_cases hpk : (wvec.getD j default).b_proof.pk ≠
                  O.update_commitments_to_xi (xic.getD (sv.getD i 0) 0)
                    (vssv.getD (sv.getD i 0) default) (sv.getD i 0) sv
              · rw [if_pos hpk] at hout; simp at hout
              · rw [if_neg hpk] at hout
                rcases hrec : sign_round2_verify O dk k_i gvec wvec xic
                    vssv sv pid is (j + 1) with er | rest
                · rw [hrec] at hout; simp at hout
                · have hsub := (ih (j + 1)).1 rest hrec
                  simp [hsub]
                  simpa using not_not.1 hpk
        · intro e he
          rw [sign_round2_verify, if_neg hi] at he
          rw [sign_round2_checks_spec, if_neg hi]
          rcases hg : O.verify_proofs_get_alpha (gvec.getD j default)
              dk k_i with eg | ag
          · rw [hg] at he
            dsimp only at he
            exact ⟨⟨_, by injection he with h2; exact h2.symm⟩, by simp⟩
          · rw [hg] at he
            rcases hw : O.verify_proofs_get_alpha (wvec.getD j default)
                dk k_i with ew | aw
            · rw [hw] at he
              dsimp only at he
              exact ⟨⟨_, by injection he with h2; exact h2.symm⟩, by simp⟩
            · rw [hw] at he
              dsimp only at he
              by_cases hpk : (wvec.getD j default).b_proof.pk ≠
                  O.update_commitments_to_xi (xic.getD (sv.getD i 0) 0)
                    (vssv.getD (sv.getD i 0) default) (sv.getD i 0) sv
              · rw [if_pos hpk] at he
                refine ⟨⟨_, by injection he with h2; exact h2.symm⟩, ?_⟩
                simp only [Bool.and_eq_false_iff]
                simp
                exact Or.inl (by simpa using hpk)
              · rw [if_neg hpk] at he
                rcases hrec : sign_round2_verify O dk k_i gvec wvec xic
                    vssv sv pid is (j + 1) with er | rest
                · rw [hrec] at he
                  dsimp only at he
                  have hsub := (ih (j + 1)).2 er hrec
                  refine ⟨?_, ?_⟩
                  · obtain ⟨s, hs⟩ := hsub.1
                    refine ⟨s, ?_⟩
                    injection he with h2
                    rw [← h2]
                    exact hs
                  · simp [hsub.2]
                · rw [hrec] at he
                  simp at he
  refine ⟨(main is j).1, (main is j).2, ?_⟩
  intro hfail f p
  rcases hv : sign_round2_verify O dk k_i gvec wvec xic vssv sv pid
      is j with e | out
  · obtain ⟨s, hs⟩ := ((main is j).2 e (by rw [hv])).1
    refine ⟨s, ?_⟩
    rw [show liftCore (Except.error e :
        Except CoreErrors (List FE × List FE)) = failP e from rfl,
      bind_fail_run, hs]
  · have := (main is j).1 out (by rw [hv])
    rw [this] at hfail
    exact absurd hfail (by simp)

/-- Witness for C4 at a concrete input: one co-signer whose proofs verify
and whose w proof point (9) matches the reconstructed commitment (9). -/
theorem sign_round2_verification_gate_witness :
    sign_round2_verify SO0 0 3 [⟨⟨9, 0⟩, 1⟩] [⟨⟨9, 0⟩, 2⟩] [0, 0]
      [⟨7⟩, ⟨8⟩] [0, 1] 0 [0, 1] 0 = .ok ([11], [11]) ∧
    sign_round2_checks_spec SO0 0 3 [⟨⟨9, 0⟩, 1⟩] [⟨⟨9, 0⟩, 2⟩] [0, 0]
      [⟨7⟩, ⟨8⟩] [0, 1] 0 [0, 1] 0 = true := by
  refine ⟨by rfl, ?_⟩
  exact (sign_round2_verification_gate SO0 0 3 [⟨⟨9, 0⟩, 1⟩] [⟨⟨9, 0⟩, 2⟩]
    [0, 0] [⟨7⟩, ⟨8⟩] [0, 1] 0 [0, 1] 0).1 ([11], [11]) (by rfl)

/-- The peer-share decryption of lines 756-761, as a function of the
cursor j: decrypt encrypted[j] under enc_keys[j]. -/
def dec_at (O : KeygenOracles) (enc_keys : List BigInt)
    (encrypted : List AEAD) (j : Nat) : FE :=
  O.fe_from_bigint (O.bytes_to_bigint (O.aes_decrypt
    (O.bigint_to_vec (enc_keys.getD j 0)) (encrypted.getD j default)))

theorem assemble_noself (O : KeygenOracles) (pni : Nat)
    (ss : List FE) (ek : List BigInt) (enc : List AEAD) :
    ∀ (l : List Nat) (j : Nat), (∀ i ∈ l, i ≠ pni) →
      assemble_party_shares O pni ss ek enc l j =
        (List.range l.length).map (fun k => dec_at O ek enc (j + k)) := by
  intro l
  induction l with
  | nil => intro j _; rfl
  | cons i l ih =>
    intro j hns
    rw [assemble_party_shares, if_neg (hns i (List.mem_cons_self _ _))]
    rw [ih (j + 1) (fun x hx => hns x (List.mem_cons_of_mem _ hx))]
    rw [List.length_cons, List.range_succ_eq_map, List.map_cons,
      List.map_map]
    refine congrArg₂ _ (by rw [Nat.add_zero]; rfl) ?_
    apply List.map_congr_left
    intro k _
    show dec_at O ek enc (j + 1 + k) = dec_at O ek enc (j + (k + 1))
    congr 1
    omega

theorem assemble_append (O : KeygenOracles) (pni : Nat)
    (ss : List FE) (ek : List BigInt) (enc : List AEAD) :
    ∀ (l1 l2 : List Nat) (j : Nat), (∀ i ∈ l1, i ≠ pni) →
      assemble_party_shares O pni ss ek enc (l1 ++ l2) j =
        assemble_party_shares O pni ss ek enc l1 j ++
          assemble_party_shares O pni ss ek enc l2 (j + l1.length) := by
  intro l1
  induction l1 with
  | nil => intro l2 j _; simp [assemble_party_shares]
  | cons i l1 ih =>
    intro l2 j hns
    rw [List.cons_append, assemble_party_shares,
      if_neg (hns i (List.mem_cons_self _ _)), assemble_party_shares,
      if_neg (hns i (List.mem_cons_self _ _))]
    rw [ih l2 (j + 1) (fun x hx => hns x (List.mem_cons_of_mem _ hx))]
    rw [List.cons_append, List.length_cons]
    refine congrArg₂ _ rfl (congrArg₂ _ rfl (congrArg _ ?_))
    omega

theorem eraseIdx_set (l : List AEAD) (i : Nat) (x : AEAD) :
    (l.set i x).eraseIdx i = l.eraseIdx i := by
  rw [List.eraseIdx_eq_take_drop_succ, List.eraseIdx_eq_take_drop_succ]
  congr 1
  · apply List.ext_getElem?
    intro n
    rw [List.getElem?_take, List.getElem?_take]
    by_cases h : n < i
    · rw [if_pos h, if_pos h, List.getElem?_set_ne (by omega)]
    · rw [if_neg h, if_neg h]
  · apply List.ext_getElem?
    intro n
    rw [List.getElem?_drop, List.getElem?_drop,
      List.getElem?_set_ne (by omega)]

/-- The share-assembly loop splits into: decrypted peers below party_id,
the own secret share, decrypted peers above party_id. -/
theorem assemble_split (O : KeygenOracles) (parties party_id : Nat)
    (ss : List FE) (ek : List BigInt) (enc : List AEAD)
    (h : party_id < parties) :
    assemble_party_shares O (party_id + 1) ss ek enc
        (List.range' 1 parties) 0 =
      (List.range party_id).map (fun k => dec_at O ek enc k) ++
        ss.getD party_id 0 ::
          (List.range (parties - party_id - 1)).map
            (fun k => dec_at O ek enc (party_id + k)) := by
  have hsplit : List.range' 1 parties =
      List.range' 1 party_id ++
        (1 + party_id) :: List.range' (1 + party_id + 1)
          (parties - party_id - 1) := by
    rw [show (1 + party_id) :: List.range' (1 + party_id + 1)
        (parties - party_id - 1) =
        List.range' (1 + party_id) (parties - party_id - 1 + 1) from
      (List.range'_succ _ _ _).symm]
    rw [List.range'_append_1]
    congr 1
    omega
  rw [hsplit]
  rw [assemble_append O (party_id + 1) ss ek enc _ _ 0
    (by
      intro x hx
      have := List.mem_range'_1.1 hx
      omega)]
  rw [assemble_noself O (party_id + 1) ss ek enc _ 0
    (by
      intro x hx
      have := List.mem_range'_1.1 hx
      omega)]
  rw [List.length_range', Nat.zero_add]
  rw [assemble_party_shares, if_pos (by omega)]
  rw [assemble_noself O (party_id + 1) ss ek enc _ party_id
    (by
      intro x hx
      have := List.mem_range'_1.1 hx
      omega)]
  rw [List.length_range']
  refine congrArg₂ _ (List.map_congr_left ?_) ?_
  · intro k _
    rw [Nat.zero_add]
  · refine congrArg₂ _ ?_ rfl
    congr 1
    omega

/-- C7.  (i) The round-3 collector's slot vector starts with the default
(zero) AEAD in the own slot (safe_keygeneration calls collect_round with
AEAD::default()); (ii) whatever value sits in the own slot after
collection, it is removed (eraseIdx party_id) before the decryption loop,
so the assembled shares never depend on it; (iii) pointwise, the own
share is taken directly from the locally generated secret_shares while
peer p's share is the decryption of the peer's collected ciphertext
(slot p) under the corresponding excluding-self enc_key. -/
theorem keygen_round3_placeholder_and_decryption (O : KeygenOracles)
    (parties party_id : Nat) (secret_shares : List FE)
    (enc_keys : List BigInt) (collected : List AEAD)
    (hpid : party_id < parties) (hlen : collected.length = parties) :
    ((List.replicate parties (Option.none : Option AEAD)).set party_id
        (some (default : AEAD)))[party_id]? =
      some (some (default : AEAD)) ∧
    (∀ x : AEAD,
      assemble_party_shares O (party_id + 1) secret_shares enc_keys
        ((collected.set party_id x).eraseIdx party_id)
        (List.range' 1 parties) 0 =
      assemble_party_shares O (party_id + 1) secret_shares enc_keys
        (collected.eraseIdx party_id) (List.range' 1 parties) 0) ∧
    (∀ p, p < parties →
      (assemble_party_shares O (party_id + 1) secret_shares enc_keys
        (collected.eraseIdx party_id) (List.range' 1 parties) 0)[p]? =
      some (if p = party_id then secret_shares.getD p 0
        else O.fe_from_bigint (O.bytes_to_bigint (O.aes_decrypt
          (O.bigint_to_vec
            (enc_keys.getD (if p < party_id then p else p - 1) 0))
          (collected.getD p default))))) := by
  refine ⟨?_, ?_, ?_⟩
  · rw [List.getElem?_set_eq_of_lt]
    rwa [List.length_replicate]
  · intro x
    rw [eraseIdx_set]
  · intro p hp
    have her : ∀ q, q < party_id →
        (collected.eraseIdx party_id).getD q default =
          collected.getD q default := by
      intro q hq
      rw [List.eraseIdx_eq_take_drop_succ, List.getD_eq_getElem?_getD,
        List.getD_eq_getElem?_getD,
        List.getElem?_append_left (by
          rw [List.length_take]
          omega),
        List.getElem?_take, if_pos hq]
    have her2 : ∀ q, party_id ≤ q →
        (collected.eraseIdx party_id).getD q default =
          collected.getD (q + 1) default := by
      intro q hq
      rw [List.eraseIdx_eq_take_drop_succ, List.getD_eq_getElem?_getD,
        List.getD_eq_getElem?_getD,
        List.getElem?_append_right (by
          rw [List.length_take]
          omega),
        List.getElem?_drop]
      congr 2
      rw [List.length_take]
      omega
    rw [assemble_split O parties party_id secret_shares enc_keys
      (collected.eraseIdx party_id) hpid]
    rcases Nat.lt_trichotomy p party_id with hlt | heq | hgt
    · rw [List.getElem?_append_left (by
        rw [List.length_map, List.length_range]
        exact hlt)]
      rw [List.getElem?_map, List.getElem?_range hlt]
      rw [if_neg (by omega), if_pos hlt]
      rw [Option.map_some']
      rw [dec_at, her p hlt]
    · subst heq
      rw [List.getElem?_append_right (by
        rw [List.length_map, List.length_range])]
      rw [List.length_map, List.length_range, Nat.sub_self]
      rw [if_pos rfl]
      rw [List.getElem?_cons_zero]
    · have hb : p - party_id - 1 < parties - party_id - 1 := by omega
      rw [List.getElem?_append_right (by
        rw [List.length_map, List.length_range]
        omega)]
      rw [List.length_map, List.length_range]
      rw [show p - party_id = (p - party_id - 1) + 1 from by omega]
      rw [List.getElem?_cons_succ]
      rw [List.getElem?_map, List.getElem?_range hb]
      rw [Option.map_some']
      rw [if_neg (by omega), if_neg (by omega)]
      rw [show party_id + (p - party_id - 1) = p - 1 from by omega]
      rw [dec_at, her2 (p - 1) (by omega)]
      rw [show p - 1 + 1 = p from by omega]

/-- Witness for C7 at a concrete input: 3 parties, party 1; the placeholder
slot is seeded, set-invariance holds for a concrete overwrite, and peer 2's
share decrypts collected slot 2 under enc_keys[1]. -/
theorem keygen_round3_placeholder_and_decryption_witness :
    ((1 : Nat) < 3 ∧ ([⟨[1], []⟩, ⟨[9], [9]⟩, ⟨[2], []⟩] :
        List AEAD).length = 3) ∧
    (assemble_party_shares KO0 2 [31, 32, 33] [41, 42]
      (([⟨[1], []⟩, ⟨[9], [9]⟩, ⟨[2], []⟩] :
        List AEAD).eraseIdx 1) (List.range' 1 3) 0)[2]? =
      some (KO0.fe_from_bigint (KO0.bytes_to_bigint (KO0.aes_decrypt
        (KO0.bigint_to_vec ([41, 42].getD 1 0))
        (([⟨[1], []⟩, ⟨[9], [9]⟩, ⟨[2], []⟩] :
          List AEAD).getD 2 default)))) := by
  refine ⟨⟨by decide, by decide⟩, ?_⟩
  have h := (keygen_round3_placeholder_and_decryption KO0 3 1 [31, 32, 33]
    [41, 42] [⟨[1], []⟩, ⟨[9], [9]⟩, ⟨[2], []⟩] (by decide) (by decide)).2.2
    2 (by decide)
  simpa using h

end Corelib
